import Mathlib

/-!
# Verification of the bulk relational import logic (edulive-ai/neo4j)

Shallow embedding of the bulk import / link functions of `neo4j_module.py`
and `api_neo4j.py`.  The external graph store is modelled as an explicit
`Store` value; transactional queries become pure state transitions plus an
explicit trace of issued store operations (`Ev`).  Nondeterministic pieces
of the Python environment are threaded as parameters:

* `genId : Nat → String` models successive `uuid.uuid4()` draws;
* `now : String` models `datetime.now().isoformat()` (the scripts call it
  several times per record; all calls within one request are modelled by a
  single timestamp value, which is the only aspect any claim depends on);
* `fail : Nat → Option String` models whether the chunk insert with the
  given index raises an exception (`some msg` = the driver raises `msg`).

Record dictionaries become structures with `Option` fields standing for
possibly-missing keys.
-/

/-- A store operation, recorded in the trace of a call: transaction
control, the batched existence/uniqueness lookups, and bulk writes. -/
inductive Ev where
  | txBegin : Ev
  | txCommit : Ev
  | txRollback : Ev
  | readUsersByEmail (emails : List String) : Ev
  | readUsersById (ids : List String) : Ev
  | readLessons (ids : List String) : Ev
  | readQuestions (ids : List String) : Ev
  | readKnowledge (ids : List String) : Ev
  | readLearned (userIds knowledgeIds : List String) : Ev
  | write (label : String) (n : Nat) : Ev
deriving Repr, DecidableEq

/-- A `User` node as stored (`CREATE (u:User {...})` in `bulk_create_users`
and `import_users_optimized`). -/
structure UserRec where
  id : String
  name : String
  email : String
  age : Int
  createdAt : String
  updatedAt : String
deriving Repr, DecidableEq

/-- A `Question` node as stored by `import_questions_optimized` (the node
itself does not carry `lesson_id`; that lives on the relationship). -/
structure QuestionRec where
  id : String
  title : String
  content : String
  correct_answer : String
  image_question : String
  image_answer : String
  difficulty : String
  page : Int
  createdAt : String
  updatedAt : String
deriving Repr, DecidableEq

/-- An `Answer` node as stored by `import_answers_optimized`. -/
structure AnswerRec where
  id : String
  student_answer : String
  is_correct : Bool
  start_time : String
  completion_time : String
  duration_seconds : Int
  createdAt : String
  updatedAt : String
deriving Repr, DecidableEq

/-- A `LEARNED` relationship with its properties
(`status`, `progress`, `linkedAt`, `createdAt`, `updatedAt`). -/
structure LearnedRec where
  userId : String
  knowledgeId : String
  status : String
  progress : Int
  linkedAt : String
  createdAt : String
  updatedAt : String
deriving Repr, DecidableEq

/-- The graph store.  Only the node labels and relationships touched by the
modelled operations are kept; `Lesson` and `Knowledge` nodes are reduced to
their `id` (the only property any modelled query reads). -/
structure Store where
  users : List UserRec
  lessons : List String
  questions : List QuestionRec
  questionLessonRels : List (String × String)
  answers : List AnswerRec
  userAnswerRels : List (String × String)
  answerQuestionRels : List (String × String)
  knowledge : List String
  learned : List LearnedRec
deriving Repr, DecidableEq

/-- The structured result of a bulk import call, per the three `return`
sites of each bulk function: the early `No valid ... to import` return
(which still carries the per-record reasons), the `Transaction failed`
return after a rollback (a single reason, no per-record data), and the
normal return. -/
inductive ImportResult (α : Type) where
  | earlyFail (error : String) (errors : List String) : ImportResult α
  | txFail (error : String) : ImportResult α
  | done (created : List α) (totalProcessed totalCreated totalErrors : Nat)
      (errors : List String) (success : Bool) : ImportResult α
deriving Repr, DecidableEq

/-- Full outcome of one bulk call: the store after the call, the returned
result, and the trace of store operations issued. -/
structure BulkOut (α : Type) where
  store : Store
  result : ImportResult α
  trace : List Ev
deriving Repr, DecidableEq

/-- The `success` flag of a result (`False` on both failure returns). -/
def ImportResult.successFlag : ImportResult α → Bool
  | .earlyFail _ _ => false
  | .txFail _ => false
  | .done _ _ _ _ _ s => s

/-- The number of records reported as created (both failure returns report
none). -/
def ImportResult.createdCount : ImportResult α → Nat
  | .earlyFail _ _ => 0
  | .txFail _ => 0
  | .done c _ _ _ _ _ => c.length

/-- The per-record reason list of a result (`errors` key; the
`Transaction failed` return carries none). -/
def ImportResult.reasons : ImportResult α → List String
  | .earlyFail _ es => es
  | .txFail _ => []
  | .done _ _ _ _ es _ => es

/-- Python `str.strip()` (leading and trailing whitespace removed),
defined over the character list so that the kernel can evaluate it. -/
def pyStrip (s : String) : String :=
  ⟨((s.data.dropWhile Char.isWhitespace).reverse.dropWhile Char.isWhitespace).reverse⟩

/-- Python `str.lower()`, defined over the character list. -/
def pyLower (s : String) : String :=
  ⟨s.data.map Char.toLower⟩

/-- Python `c in s` membership of a character, defined over the character
list. -/
def pyContains (s : String) (c : Char) : Bool :=
  s.data.contains c

/-- Python `repr` of a list of strings, as interpolated by
`f'... Missing {missing_fields}'`. -/
def pyStrList (xs : List String) : String :=
  "[" ++ String.intercalate ", " (xs.map fun s => "\x27" ++ s ++ "\x27") ++ "]"

/-- `min(100, max(0, p))` — the progress clamp used by every progress
write. -/
def clamp01 (p : Int) : Int := min 100 (max 0 p)

/-- Fuel-driven worker for `chunkList` (structural recursion, so that the
kernel can evaluate it on concrete inputs; the fuel `l.length` always
suffices for `n > 0`). -/
def chunkGo (n : Nat) : Nat → List α → List (List α)
  | _, [] => []
  | 0, _ :: _ => []
  | fuel + 1, a :: l => (a :: l).take n :: chunkGo n fuel ((a :: l).drop n)

/-- `new_users[i:i + batch_size]` slicing loop: split a list into chunks
of size `n` (callers use `n > 0`; `n = 0` raises in the Python source and
is handled separately at the call sites). -/
def chunkList (n : Nat) (l : List α) : List (List α) :=
  if n = 0 then [] else chunkGo n l.length l

/-- Run the chunked insert loop: chunk `k` raises iff `fail k = some e`.
Returns the trace of chunk writes actually issued before the failure (or
all of them) and either the concatenated created records or the raised
message.  `evs c` is the list of write events one chunk issues. -/
def runChunks (fail : Nat → Option String) (evs : List α → List Ev) :
    Nat → List (List α) → List Ev × Except String (List α)
  | _, [] => ([], Except.ok [])
  | k, c :: cs =>
    match fail k with
    | some e => ([], Except.error e)
    | none =>
      match runChunks fail evs (k + 1) cs with
      | (es, Except.error e) => (evs c ++ es, Except.error e)
      | (es, Except.ok rest) => (evs c ++ es, Except.ok (c ++ rest))

/-! ## `neo4j_module.bulk_create_users` -/

/-- A candidate user record (a JSON dict): `Option` = key possibly
absent.  Python falsiness of `user.get('id')` is reflected by treating
both a missing key and the empty string as "no caller-supplied id". -/
structure UserIn where
  name : Option String
  email : Option String
  age : Option Int
  id : Option String
deriving Repr, DecidableEq

/-- Whether `user.get('id')` is truthy (key present and not `""`). -/
def UserIn.suppliedId : UserIn → Option String
  | u => match u.id with
    | none => none
    | some s => if s = "" then none else some s

/-- The node dict built for a surviving record (`user_data = {...}`). -/
def mkUserRec (now : String) (uid : String) (u : UserIn) : UserRec :=
  { id := uid
    name := pyStrip (u.name.getD "")
    email := pyLower (pyStrip (u.email.getD ""))
    age := u.age.getD 7
    createdAt := now
    updatedAt := now }

/-- The validation loop of `bulk_create_users`: required-field check,
email-shape check, id assignment with in-batch duplicate detection
(`used_ids`), UUID generation otherwise.  `i` is the original index,
`used` the set of already-claimed ids, `c` the UUID counter. -/
def validateUsersModule (genId : Nat → String) (now : String) :
    Nat → List String → Nat → List UserIn → List UserRec × List String
  | _, _, _, [] => ([], [])
  | i, used, c, u :: rest =>
    if u.name.isNone ∨ u.email.isNone then
      let r := validateUsersModule genId now (i + 1) used c rest
      (r.1, ("User " ++ toString i ++ ": Missing name or email") :: r.2)
    else if ¬ pyContains (u.email.getD "") '@' then
      let r := validateUsersModule genId now (i + 1) used c rest
      (r.1, ("User " ++ toString i ++ ": Invalid email format") :: r.2)
    else
      match u.suppliedId with
      | some s =>
        let t := pyStrip s
        if t = "" then
          let r := validateUsersModule genId now (i + 1) used c rest
          (r.1, ("User " ++ toString i ++ ": Empty ID provided") :: r.2)
        else if t ∈ used then
          let r := validateUsersModule genId now (i + 1) used c rest
          (r.1, ("User " ++ toString i ++ ": Duplicate ID \"" ++ t ++ "\" in batch") :: r.2)
        else
          let r := validateUsersModule genId now (i + 1) (t :: used) c rest
          (mkUserRec now t u :: r.1, r.2)
      | none =>
        let r := validateUsersModule genId now (i + 1) used (c + 1) rest
        (mkUserRec now (genId c) u :: r.1, r.2)

/-- The existing-email / existing-id filter of `bulk_create_users`: a
record conflicting on its email and/or its id is dropped, appending one
reason per conflicting key (a record can contribute two reasons). -/
def filterUserConflicts (existingEmails existingIds : List String) :
    List UserRec → List UserRec × List String
  | [] => ([], [])
  | u :: rest =>
    let r := filterUserConflicts existingEmails existingIds rest
    let emailConf : Bool := u.email ∈ existingEmails
    let idConf : Bool := u.id ∈ existingIds
    let here :=
      (if emailConf then ["Email " ++ u.email ++ " already exists"] else []) ++
      (if idConf then ["ID " ++ u.id ++ " already exists"] else [])
    if emailConf ∨ idConf then (r.1, here ++ r.2) else (u :: r.1, r.2)

/-- Stage 1–3 of `bulk_create_users`: the validated records and the
per-record validation reasons. -/
def moduleUsersValidated (genId : Nat → String) (now : String)
    (usersData : List UserIn) : List UserRec × List String :=
  validateUsersModule genId now 0 [] 0 usersData

/-- Stage 5 of `bulk_create_users`: the records surviving the
existing-email / existing-id check, and its reasons. -/
def moduleUsersNew (store : Store) (genId : Nat → String) (now : String)
    (usersData : List UserIn) : List UserRec × List String :=
  let v := moduleUsersValidated genId now usersData
  filterUserConflicts
    ((store.users.map (·.email)).filter (· ∈ v.1.map (·.email)))
    ((store.users.map (·.id)).filter (· ∈ v.1.map (·.id)))
    v.1

/-- `neo4j_module.bulk_create_users`.  The whole body runs inside one
transaction (`session.begin_transaction` precedes validation); a chunk
failure triggers `tx.rollback()` and the `Transaction failed` return;
`batch_size = 0` raises `ValueError` inside the `try`, which the same
handler turns into a rollback. -/
def bulkCreateUsers (store : Store) (usersData : List UserIn) (batchSize : Nat)
    (genId : Nat → String) (now : String) (fail : Nat → Option String) :
    BulkOut UserRec :=
  let v := moduleUsersValidated genId now usersData
  if v.1.isEmpty then
    { store := store
      result := .earlyFail "No valid users to import" v.2
      trace := [.txBegin, .txRollback] }
  else
    let emailList := v.1.map (·.email)
    let idList := v.1.map (·.id)
    let f := moduleUsersNew store genId now usersData
    let reads := [Ev.txBegin, Ev.readUsersByEmail emailList, Ev.readUsersById idList]
    if batchSize = 0 then
      { store := store
        result := .txFail "Transaction failed: range() arg 3 must not be zero"
        trace := reads ++ [.txRollback] }
    else
      match runChunks fail (fun c => [Ev.write "User" c.length]) 0
          (chunkList batchSize f.1) with
      | (wr, Except.error e) =>
        { store := store
          result := .txFail ("Transaction failed: " ++ e)
          trace := reads ++ wr ++ [.txRollback] }
      | (wr, Except.ok created) =>
        { store := { store with users := store.users ++ created }
          result := .done created usersData.length created.length
            (v.2 ++ f.2).length (v.2 ++ f.2) (decide (0 < created.length))
          trace := reads ++ wr ++ [.txCommit] }

/-! ## `api_neo4j.import_users_optimized` -/

/-- The validation loop of `import_users_optimized`: same field and email
checks as the module variant, but a fresh UUID is assigned to *every*
valid record — a caller-supplied `id` key is ignored. -/
def validateUsersApi (genId : Nat → String) (now : String) :
    Nat → Nat → List UserIn → List UserRec × List String
  | _, _, [] => ([], [])
  | i, c, u :: rest =>
    if u.name.isNone ∨ u.email.isNone then
      let r := validateUsersApi genId now (i + 1) c rest
      (r.1, ("User " ++ toString i ++ ": Missing name or email") :: r.2)
    else if ¬ pyContains (u.email.getD "") '@' then
      let r := validateUsersApi genId now (i + 1) c rest
      (r.1, ("User " ++ toString i ++ ": Invalid email format") :: r.2)
    else
      let r := validateUsersApi genId now (i + 1) (c + 1) rest
      (mkUserRec now (genId c) u :: r.1, r.2)

/-- The existing-email filter of `import_users_optimized` (one reason per
conflicting record; no id check — every id is a fresh UUID). -/
def filterEmailConflicts (existingEmails : List String) :
    List UserRec → List UserRec × List String
  | [] => ([], [])
  | u :: rest =>
    let r := filterEmailConflicts existingEmails rest
    if u.email ∈ existingEmails then
      (r.1, ("Email " ++ u.email ++ " already exists") :: r.2)
    else (u :: r.1, r.2)

/-- The validated stage of `import_users_optimized`. -/
def apiUsersValidated (genId : Nat → String) (now : String)
    (usersData : List UserIn) : List UserRec × List String :=
  validateUsersApi genId now 0 0 usersData

/-- The records of `import_users_optimized` surviving the existing-email
check. -/
def apiUsersNew (store : Store) (genId : Nat → String) (now : String)
    (usersData : List UserIn) : List UserRec × List String :=
  let v := apiUsersValidated genId now usersData
  filterEmailConflicts
    ((store.users.map (·.email)).filter (· ∈ v.1.map (·.email))) v.1

/-- `api_neo4j.import_users_optimized` (route `POST /api/v1/users/bulk`). -/
def importUsersOptimized (store : Store) (usersData : List UserIn)
    (batchSize : Nat) (genId : Nat → String) (now : String)
    (fail : Nat → Option String) : BulkOut UserRec :=
  let v := apiUsersValidated genId now usersData
  if v.1.isEmpty then
    { store := store
      result := .earlyFail "No valid users to import" v.2
      trace := [.txBegin, .txRollback] }
  else
    let emailList := v.1.map (·.email)
    let f := apiUsersNew store genId now usersData
    let reads := [Ev.txBegin, Ev.readUsersByEmail emailList]
    if batchSize = 0 then
      { store := store
        result := .txFail "Transaction failed: range() arg 3 must not be zero"
        trace := reads ++ [.txRollback] }
    else
      match runChunks fail (fun c => [Ev.write "User" c.length]) 0
          (chunkList batchSize f.1) with
      | (wr, Except.error e) =>
        { store := store
          result := .txFail ("Transaction failed: " ++ e)
          trace := reads ++ wr ++ [.txRollback] }
      | (wr, Except.ok created) =>
        { store := { store with users := store.users ++ created }
          result := .done created usersData.length created.length
            (v.2 ++ f.2).length (v.2 ++ f.2) (decide (0 < created.length))
          trace := reads ++ wr ++ [.txCommit] }

/-! ## `api_neo4j.import_questions_optimized` -/

/-- A candidate question record. -/
structure QuestionIn where
  lesson_id : Option String
  title : Option String
  content : Option String
  correct_answer : Option String
  difficulty : Option String
  page : Option Int
  image_question : Option String
  image_answer : Option String
deriving Repr, DecidableEq

/-- A validated question row: the node dict plus the `lesson_id` kept for
the relationship insert. -/
structure QuestionRow where
  node : QuestionRec
  lesson_id : String
deriving Repr, DecidableEq

/-- Names of the required fields missing from a question record, in the
order the source checks them. -/
def QuestionIn.missingFields (q : QuestionIn) : List String :=
  (if q.lesson_id.isNone then ["lesson_id"] else []) ++
  (if q.title.isNone then ["title"] else []) ++
  (if q.content.isNone then ["content"] else []) ++
  (if q.correct_answer.isNone then ["correct_answer"] else []) ++
  (if q.difficulty.isNone then ["difficulty"] else []) ++
  (if q.page.isNone then ["page"] else [])

/-- The `question_data` dict built for a valid record. -/
def mkQuestionRow (now : String) (uid : String) (q : QuestionIn) : QuestionRow :=
  { node :=
      { id := uid
        title := q.title.getD ""
        content := q.content.getD ""
        correct_answer := q.correct_answer.getD ""
        image_question := q.image_question.getD ""
        image_answer := q.image_answer.getD ""
        difficulty := q.difficulty.getD ""
        page := q.page.getD 0
        createdAt := now
        updatedAt := now }
    lesson_id := q.lesson_id.getD "" }

/-- The validation loop of `import_questions_optimized`. -/
def validateQuestions (genId : Nat → String) (now : String) :
    Nat → Nat → List QuestionIn → List QuestionRow × List String
  | _, _, [] => ([], [])
  | i, c, q :: rest =>
    if q.missingFields.isEmpty then
      let r := validateQuestions genId now (i + 1) (c + 1) rest
      (mkQuestionRow now (genId c) q :: r.1, r.2)
    else
      let r := validateQuestions genId now (i + 1) c rest
      (r.1, ("Question " ++ toString i ++ ": Missing " ++ pyStrList q.missingFields) :: r.2)

/-- The lesson-existence filter: one reason per question whose
`lesson_id` is not in the existence set. -/
def filterQuestionsLesson (existingLessons : List String) :
    List QuestionRow → List QuestionRow × List String
  | [] => ([], [])
  | q :: rest =>
    let r := filterQuestionsLesson existingLessons rest
    if q.lesson_id ∈ existingLessons then (q :: r.1, r.2)
    else
      (r.1, ("Lesson " ++ q.lesson_id ++ " not found for question " ++ q.node.title) :: r.2)

/-- The validated stage of `import_questions_optimized`. -/
def questionsValidated (genId : Nat → String) (now : String)
    (questionsData : List QuestionIn) : List QuestionRow × List String :=
  validateQuestions genId now 0 0 questionsData

/-- The question rows surviving the lesson-existence check. -/
def questionsFinal (store : Store) (genId : Nat → String) (now : String)
    (questionsData : List QuestionIn) : List QuestionRow × List String :=
  let v := questionsValidated genId now questionsData
  filterQuestionsLesson
    (store.lessons.filter (· ∈ (v.1.map (·.lesson_id)).dedup)) v.1

/-- `api_neo4j.import_questions_optimized` (route
`POST /api/v1/questions/bulk`).  Each chunk issues a node bulk-insert and a
`BELONGS_TO_LESSON` bulk-insert; the `performance` metadata of the
response (batch size, `(len(final)//batch_size)+1` batches) is round-trip
accounting and is derivable from the trace, so it is not duplicated in
`ImportResult`. -/
def importQuestionsOptimized (store : Store) (questionsData : List QuestionIn)
    (batchSize : Nat) (genId : Nat → String) (now : String)
    (fail : Nat → Option String) : BulkOut QuestionRow :=
  let v := questionsValidated genId now questionsData
  if v.1.isEmpty then
    { store := store
      result := .earlyFail "No valid questions to import" v.2
      trace := [.txBegin, .txRollback] }
  else
    let lessonIds := (v.1.map (·.lesson_id)).dedup
    let f := questionsFinal store genId now questionsData
    let reads := [Ev.txBegin, Ev.readLessons lessonIds]
    if batchSize = 0 then
      { store := store
        result := .txFail "Transaction failed: range() arg 3 must not be zero"
        trace := reads ++ [.txRollback] }
    else
      match runChunks fail
          (fun c => [Ev.write "Question" c.length, Ev.write "BELONGS_TO_LESSON" c.length]) 0
          (chunkList batchSize f.1) with
      | (wr, Except.error e) =>
        { store := store
          result := .txFail ("Transaction failed: " ++ e)
          trace := reads ++ wr ++ [.txRollback] }
      | (wr, Except.ok created) =>
        { store :=
            { store with
              questions := store.questions ++ created.map (·.node)
              questionLessonRels := store.questionLessonRels ++
                created.map (fun q => (q.node.id, q.lesson_id)) }
          result := .done created questionsData.length created.length
            (v.2 ++ f.2).length (v.2 ++ f.2) (decide (0 < created.length))
          trace := reads ++ wr ++ [.txCommit] }

/-! ## `api_neo4j.import_answers_optimized` -/

/-- A candidate answer record. -/
structure AnswerIn where
  user_id : Option String
  question_id : Option String
  student_answer : Option String
  is_correct : Option Bool
  start_time : Option String
  completion_time : Option String
  duration_seconds : Option Int
deriving Repr, DecidableEq

/-- A validated answer row: the node dict plus the two foreign keys kept
for the relationship inserts. -/
structure AnswerRow where
  node : AnswerRec
  user_id : String
  question_id : String
deriving Repr, DecidableEq

/-- Names of the required fields missing from an answer record. -/
def AnswerIn.missingFields (a : AnswerIn) : List String :=
  (if a.user_id.isNone then ["user_id"] else []) ++
  (if a.question_id.isNone then ["question_id"] else []) ++
  (if a.student_answer.isNone then ["student_answer"] else []) ++
  (if a.is_correct.isNone then ["is_correct"] else [])

/-- The `answer_data` dict built for a valid record (`start_time`,
`completion_time` default to `now`, `duration_seconds` to 0). -/
def mkAnswerRow (now : String) (uid : String) (a : AnswerIn) : AnswerRow :=
  { node :=
      { id := uid
        student_answer := a.student_answer.getD ""
        is_correct := a.is_correct.getD false
        start_time := a.start_time.getD now
        completion_time := a.completion_time.getD now
        duration_seconds := a.duration_seconds.getD 0
        createdAt := now
        updatedAt := now }
    user_id := a.user_id.getD ""
    question_id := a.question_id.getD "" }

/-- The validation loop of `import_answers_optimized`. -/
def validateAnswers (genId : Nat → String) (now : String) :
    Nat → Nat → List AnswerIn → List AnswerRow × List String
  | _, _, [] => ([], [])
  | i, c, a :: rest =>
    if a.missingFields.isEmpty then
      let r := validateAnswers genId now (i + 1) (c + 1) rest
      (mkAnswerRow now (genId c) a :: r.1, r.2)
    else
      let r := validateAnswers genId now (i + 1) c rest
      (r.1, ("Answer " ++ toString i ++ ": Missing " ++ pyStrList a.missingFields) :: r.2)

/-- The user/question existence filter of `import_answers_optimized`: the
user check runs first and `continue`s, so a record failing both checks
still contributes exactly one reason. -/
def filterAnswersFk (existingUsers existingQuestions : List String) :
    List AnswerRow → List AnswerRow × List String
  | [] => ([], [])
  | a :: rest =>
    let r := filterAnswersFk existingUsers existingQuestions rest
    if a.user_id ∉ existingUsers then
      (r.1, ("User " ++ a.user_id ++ " not found") :: r.2)
    else if a.question_id ∉ existingQuestions then
      (r.1, ("Question " ++ a.question_id ++ " not found") :: r.2)
    else (a :: r.1, r.2)

/-- The validated stage of `import_answers_optimized`. -/
def answersValidated (genId : Nat → String) (now : String)
    (answersData : List AnswerIn) : List AnswerRow × List String :=
  validateAnswers genId now 0 0 answersData

/-- The answer rows surviving the user/question existence check. -/
def answersFinal (store : Store) (genId : Nat → String) (now : String)
    (answersData : List AnswerIn) : List AnswerRow × List String :=
  let v := answersValidated genId now answersData
  filterAnswersFk
    ((store.users.map (·.id)).filter (· ∈ (v.1.map (·.user_id)).dedup))
    ((store.questions.map (·.id)).filter (· ∈ (v.1.map (·.question_id)).dedup))
    v.1

/-- `api_neo4j.import_answers_optimized` (route
`POST /api/v1/answers/bulk`).  Each chunk issues the node bulk-insert plus
the `ANSWERED` and `ANSWERS_QUESTION` relationship bulk-inserts. -/
def importAnswersOptimized (store : Store) (answersData : List AnswerIn)
    (batchSize : Nat) (genId : Nat → String) (now : String)
    (fail : Nat → Option String) : BulkOut AnswerRow :=
  let v := answersValidated genId now answersData
  if v.1.isEmpty then
    { store := store
      result := .earlyFail "No valid answers to import" v.2
      trace := [.txBegin, .txRollback] }
  else
    let userIds := (v.1.map (·.user_id)).dedup
    let questionIds := (v.1.map (·.question_id)).dedup
    let f := answersFinal store genId now answersData
    let reads := [Ev.txBegin, Ev.readUsersById userIds, Ev.readQuestions questionIds]
    if batchSize = 0 then
      { store := store
        result := .txFail "Transaction failed: range() arg 3 must not be zero"
        trace := reads ++ [.txRollback] }
    else
      match runChunks fail
          (fun c => [Ev.write "Answer" c.length, Ev.write "ANSWERED" c.length,
            Ev.write "ANSWERS_QUESTION" c.length]) 0
          (chunkList batchSize f.1) with
      | (wr, Except.error e) =>
        { store := store
          result := .txFail ("Transaction failed: " ++ e)
          trace := reads ++ wr ++ [.txRollback] }
      | (wr, Except.ok created) =>
        { store :=
            { store with
              answers := store.answers ++ created.map (·.node)
              userAnswerRels := store.userAnswerRels ++
                created.map (fun a => (a.user_id, a.node.id))
              answerQuestionRels := store.answerQuestionRels ++
                created.map (fun a => (a.node.id, a.question_id)) }
          result := .done created answersData.length created.length
            (v.2 ++ f.2).length (v.2 ++ f.2) (decide (0 < created.length))
          trace := reads ++ wr ++ [.txCommit] }

/-! ## `api_neo4j.bulk_link_users_knowledge` -/

/-- A candidate LEARNED-link record. -/
structure LinkIn where
  user_id : Option String
  knowledge_id : Option String
  status : Option String
  progress : Option Int
deriving Repr, DecidableEq

/-- The `link_data` dict built for a field-valid record: default status
`learning`, progress clamped into 0–100, all three timestamps set to the
link time. -/
def mkLearnedRec (now : String) (l : LinkIn) : LearnedRec :=
  { userId := l.user_id.getD ""
    knowledgeId := l.knowledge_id.getD ""
    status := l.status.getD "learning"
    progress := clamp01 (l.progress.getD 0)
    linkedAt := now
    createdAt := now
    updatedAt := now }

/-- The validation loop of `bulk_link_users_knowledge` (required-field
check only). -/
def validateLinks (now : String) : Nat → List LinkIn → List LearnedRec × List String
  | _, [] => ([], [])
  | i, l :: rest =>
    if l.user_id.isNone ∨ l.knowledge_id.isNone then
      let r := validateLinks now (i + 1) rest
      (r.1, ("Link " ++ toString i ++ ": Missing user_id or knowledge_id") :: r.2)
    else
      let r := validateLinks now (i + 1) rest
      (mkLearnedRec now l :: r.1, r.2)

/-- The user/knowledge existence filter (user check first, `continue`
after each reason). -/
def filterLinksFk (existingUsers existingKnowledge : List String) :
    List LearnedRec → List LearnedRec × List String
  | [] => ([], [])
  | l :: rest =>
    let r := filterLinksFk existingUsers existingKnowledge rest
    if l.userId ∉ existingUsers then
      (r.1, ("User " ++ l.userId ++ " not found") :: r.2)
    else if l.knowledgeId ∉ existingKnowledge then
      (r.1, ("Knowledge " ++ l.knowledgeId ++ " not found") :: r.2)
    else (l :: r.1, r.2)

/-- The pre-existing-relationship filter: a candidate is dropped iff its
`user_id + '|' + knowledge_id` key appears among the keys of LEARNED
relationships already committed in the store.  Candidates of the same
batch are not checked against each other. -/
def filterLinksExisting (existingKeys : List String) :
    List LearnedRec → List LearnedRec × List String
  | [] => ([], [])
  | l :: rest =>
    let r := filterLinksExisting existingKeys rest
    if l.userId ++ "|" ++ l.knowledgeId ∈ existingKeys then
      (r.1, ("User " ++ l.userId ++ " already linked to knowledge " ++ l.knowledgeId) :: r.2)
    else (l :: r.1, r.2)

/-- The validated stage of `bulk_link_users_knowledge`. -/
def linksValidated (now : String) (linksData : List LinkIn) :
    List LearnedRec × List String :=
  validateLinks now 0 linksData

/-- The links surviving the user/knowledge existence check. -/
def linksFinal (store : Store) (now : String) (linksData : List LinkIn) :
    List LearnedRec × List String :=
  let v := linksValidated now linksData
  filterLinksFk
    ((store.users.map (·.id)).filter (· ∈ (v.1.map (·.userId)).dedup))
    (store.knowledge.filter (· ∈ (v.1.map (·.knowledgeId)).dedup))
    v.1

/-- The links surviving the pre-existing-relationship check (the records
actually inserted). -/
def linksNew (store : Store) (now : String) (linksData : List LinkIn) :
    List LearnedRec × List String :=
  let v := linksValidated now linksData
  let userIds := (v.1.map (·.userId)).dedup
  let knowledgeIds := (v.1.map (·.knowledgeId)).dedup
  filterLinksExisting
    ((store.learned.filter
      (fun r => r.userId ∈ userIds ∧ r.knowledgeId ∈ knowledgeIds)).map
      (fun r => r.userId ++ "|" ++ r.knowledgeId))
    (linksFinal store now linksData).1

/-- `api_neo4j.bulk_link_users_knowledge` (route
`POST /api/v1/users/bulk/knowledge`).  There is no chunking: all surviving
links go through one `UNWIND ... CREATE`; `fail 0` models that insert
raising. -/
def bulkLinkUsersKnowledge (store : Store) (linksData : List LinkIn)
    (now : String) (fail : Nat → Option String) : BulkOut LearnedRec :=
  let v := linksValidated now linksData
  if v.1.isEmpty then
    { store := store
      result := .earlyFail "No valid links to create" v.2
      trace := [.txBegin, .txRollback] }
  else
    let userIds := (v.1.map (·.userId)).dedup
    let knowledgeIds := (v.1.map (·.knowledgeId)).dedup
    let f := linksFinal store now linksData
    let reads := [Ev.txBegin, Ev.readUsersById userIds, Ev.readKnowledge knowledgeIds]
    -- `if final_links:` — the relationship lookup and insert are skipped
    -- when nothing survived the FK filter.
    if f.1.isEmpty then
      { store := store
        result := .done [] linksData.length 0 (v.2 ++ f.2).length (v.2 ++ f.2) false
        trace := reads ++ [.txCommit] }
    else
      let g := linksNew store now linksData
      let reads2 := reads ++ [Ev.readLearned userIds knowledgeIds]
      if g.1.isEmpty then
        { store := store
          result := .done [] linksData.length 0 (v.2 ++ f.2 ++ g.2).length
            (v.2 ++ f.2 ++ g.2) false
          trace := reads2 ++ [.txCommit] }
      else
        match fail 0 with
        | some e =>
          { store := store
            result := .txFail ("Transaction failed: " ++ e)
            trace := reads2 ++ [.txRollback] }
        | none =>
          { store := { store with learned := store.learned ++ g.1 }
            result := .done g.1 linksData.length g.1.length
              (v.2 ++ f.2 ++ g.2).length (v.2 ++ f.2 ++ g.2)
              (decide (0 < g.1.length))
            trace := reads2 ++ [Ev.write "LEARNED" g.1.length, .txCommit] }

/-! ## `neo4j_module.link_user_knowledge` and
`neo4j_module.update_user_knowledge_progress` -/

/-- Result of a single link / update call: an error dict
(`success: False`) or a success dict carrying the relationship. -/
inductive OpResult where
  | failure (error : String) : OpResult
  | ok (message : String) (rel : LearnedRec) : OpResult
deriving Repr, DecidableEq

/-- `neo4j_module.link_user_knowledge`: existence checks for the user and
the knowledge node, a pre-existing-relationship check, then a single
`CREATE` whose `progress` parameter is `min(100, max(0, progress))`. -/
def linkUserKnowledge (store : Store) (userId knowledgeId : String)
    (status : String) (progress : Int) (now : String) : Store × OpResult :=
  if ¬ store.users.any (fun u => u.id = userId) then
    (store, .failure "User not found")
  else if ¬ store.knowledge.any (fun k => k = knowledgeId) then
    (store, .failure "Knowledge not found")
  else if store.learned.any (fun r => r.userId = userId ∧ r.knowledgeId = knowledgeId) then
    (store, .failure "User already linked to this knowledge")
  else
    let rel : LearnedRec :=
      { userId := userId
        knowledgeId := knowledgeId
        status := status
        progress := clamp01 progress
        linkedAt := now
        createdAt := now
        updatedAt := now }
    ({ store with learned := store.learned ++ [rel] },
      .ok "User linked to knowledge successfully" rel)

/-- The allowed LEARNED statuses of `update_user_knowledge_progress`. -/
def allowedStatuses : List String := ["learning", "completed", "mastered", "reviewing"]

/-- The `SET` applied to a matched relationship by
`update_user_knowledge_progress`: `updatedAt` always; `progress` only when
supplied (clamped); `status` only when supplied *and* allowed. -/
def applyUpdate (now : String) (progress : Option Int) (status : Option String)
    (r : LearnedRec) : LearnedRec :=
  { r with
    updatedAt := now
    progress := match progress with
      | some p => clamp01 p
      | none => r.progress
    status := match status with
      | some s => if s ∈ allowedStatuses then s else r.status
      | none => r.status }

/-- `neo4j_module.update_user_knowledge_progress`: fails when no LEARNED
relationship matches the pair; otherwise the built `SET` query updates
every matching relationship (Cypher `MATCH` is not limited to one edge)
and the call reports success. -/
def updateUserKnowledgeProgress (store : Store) (userId knowledgeId : String)
    (progress : Option Int) (status : Option String) (now : String) :
    Store × OpResult :=
  match store.learned.find? (fun r => r.userId = userId ∧ r.knowledgeId = knowledgeId) with
  | none => (store, .failure "User-Knowledge relationship not found")
  | some r0 =>
    let upd := fun (r : LearnedRec) =>
      if r.userId = userId ∧ r.knowledgeId = knowledgeId then
        applyUpdate now progress status r
      else r
    ({ store with learned := store.learned.map upd },
      .ok "User knowledge progress updated" (applyUpdate now progress status r0))

/-! ## Helper lemmas -/

theorem runChunks_noFail (evs : List α → List Ev) (k : Nat) (cs : List (List α)) :
    (runChunks (fun _ => none) evs k cs).2 = Except.ok cs.join := by
  induction cs generalizing k with
  | nil => rfl
  | cons c cs ih =>
    simp only [runChunks]
    have := ih (k + 1)
    cases hr : runChunks (fun _ => none) evs (k + 1) cs with
    | mk es r =>
      rw [hr] at this
      simp at this
      subst this
      simp [List.join]

theorem chunkGo_join (n : Nat) (hn : n ≠ 0) :
    ∀ (fuel : Nat) (l : List α), l.length ≤ fuel → (chunkGo n fuel l).join = l := by
  intro fuel
  induction fuel with
  | zero =>
    intro l hl
    have : l = [] := List.length_eq_zero.mp (Nat.le_zero.mp hl)
    subst this
    rfl
  | succ m ih =>
    intro l hl
    cases l with
    | nil => rfl
    | cons a as =>
      have hlen : ((a :: as).drop n).length ≤ m := by
        simp only [List.length_drop, List.length_cons]
        simp at hl
        omega
      have hih := ih ((a :: as).drop n) hlen
      simp only [List.join] at hih
      simp only [chunkGo, List.join, List.flatten_cons, hih]
      exact List.take_append_drop n (a :: as)

theorem chunkList_join (n : Nat) (hn : n ≠ 0) (l : List α) :
    (chunkList n l).join = l := by
  rw [chunkList, if_neg hn]
  exact chunkGo_join n hn l.length l le_rfl

theorem runChunks_fails (fail : Nat → Option String) (evs : List α → List Ev) :
    ∀ (k0 : Nat) (cs : List (List α)),
      (∃ k, k < cs.length ∧ (fail (k0 + k)).isSome) →
      ∃ e, (runChunks fail evs k0 cs).2 = Except.error e := by
  intro k0 cs
  induction cs generalizing k0 with
  | nil => rintro ⟨k, hk, _⟩; simp at hk
  | cons c cs ih =>
    rintro ⟨k, hk, hf⟩
    simp only [runChunks]
    cases h0 : fail k0 with
    | some e => exact ⟨e, rfl⟩
    | none =>
      have hk0 : k ≠ 0 := by
        intro h
        subst h
        rw [Nat.add_zero, h0] at hf
        simp at hf
      have : ∃ k, k < cs.length ∧ (fail (k0 + 1 + k)).isSome := by
        refine ⟨k - 1, ?_, ?_⟩
        · simp at hk; omega
        · have : k0 + 1 + (k - 1) = k0 + k := by omega
          rw [this]; exact hf
      obtain ⟨e, he⟩ := ih (k0 + 1) this
      cases hr : runChunks fail evs (k0 + 1) cs with
      | mk es r =>
        rw [hr] at he
        simp at he
        subst he
        exact ⟨e, rfl⟩

/-- Rollback behaviour of `bulk_create_users` when some executed chunk
insert raises. -/
theorem bulkCreateUsers_rollback (store : Store) (usersData : List UserIn)
    (batchSize : Nat) (genId : Nat → String) (now : String)
    (fail : Nat → Option String) (hb : batchSize ≠ 0)
    (hf : ∃ k, k < (chunkList batchSize (moduleUsersNew store genId now usersData).1).length ∧
      (fail k).isSome) :
    (bulkCreateUsers store usersData batchSize genId now fail).store = store ∧
    ∃ e, (bulkCreateUsers store usersData batchSize genId now fail).result =
      ImportResult.txFail ("Transaction failed: " ++ e) := by
  have hv : ¬ (moduleUsersValidated genId now usersData).1.isEmpty := by
    intro hv
    rw [List.isEmpty_iff] at hv
    have hnew : (moduleUsersNew store genId now usersData).1 = [] := by
      simp only [moduleUsersNew, hv]
      rfl
    rw [hnew] at hf
    obtain ⟨k, hk, _⟩ := hf
    rw [chunkList] at hk
    simp [chunkGo] at hk
  have hf0 : ∃ k, k < (chunkList batchSize (moduleUsersNew store genId now usersData).1).length ∧
      (fail (0 + k)).isSome := by
    simpa using hf
  obtain ⟨e, he⟩ := runChunks_fails fail (fun c => [Ev.write "User" c.length]) 0
    (chunkList batchSize (moduleUsersNew store genId now usersData).1) hf0
  unfold bulkCreateUsers
  rw [if_neg hv, if_neg hb]
  cases hr : runChunks fail (fun c => [Ev.write "User" c.length]) 0
      (chunkList batchSize (moduleUsersNew store genId now usersData).1) with
  | mk es r =>
    rw [hr] at he
    simp only at he
    subst he
    exact ⟨rfl, e, rfl⟩

/-- Rollback behaviour of `import_users_optimized` when some executed
chunk insert raises. -/
theorem importUsersOptimized_rollback (store : Store) (usersData : List UserIn)
    (batchSize : Nat) (genId : Nat → String) (now : String)
    (fail : Nat → Option String) (hb : batchSize ≠ 0)
    (hf : ∃ k, k < (chunkList batchSize (apiUsersNew store genId now usersData).1).length ∧
      (fail k).isSome) :
    (importUsersOptimized store usersData batchSize genId now fail).store = store ∧
    ∃ e, (importUsersOptimized store usersData batchSize genId now fail).result =
      ImportResult.txFail ("Transaction failed: " ++ e) := by
  have hv : ¬ (apiUsersValidated genId now usersData).1.isEmpty := by
    intro hv
    rw [List.isEmpty_iff] at hv
    have hnew : (apiUsersNew store genId now usersData).1 = [] := by
      simp only [apiUsersNew, hv]
      rfl
    rw [hnew] at hf
    obtain ⟨k, hk, _⟩ := hf
    rw [chunkList] at hk
    simp [chunkGo] at hk
  have hf0 : ∃ k, k < (chunkList batchSize (apiUsersNew store genId now usersData).1).length ∧
      (fail (0 + k)).isSome := by
    simpa using hf
  obtain ⟨e, he⟩ := runChunks_fails fail (fun c => [Ev.write "User" c.length]) 0
    (chunkList batchSize (apiUsersNew store genId now usersData).1) hf0
  unfold importUsersOptimized
  rw [if_neg hv, if_neg hb]
  cases hr : runChunks fail (fun c => [Ev.write "User" c.length]) 0
      (chunkList batchSize (apiUsersNew store genId now usersData).1) with
  | mk es r =>
    rw [hr] at he
    simp only at he
    subst he
    exact ⟨rfl, e, rfl⟩

/-- Rollback behaviour of `import_questions_optimized` when some executed
chunk insert raises. -/
theorem importQuestionsOptimized_rollback (store : Store)
    (questionsData : List QuestionIn) (batchSize : Nat) (genId : Nat → String)
    (now : String) (fail : Nat → Option String) (hb : batchSize ≠ 0)
    (hf : ∃ k, k < (chunkList batchSize (questionsFinal store genId now questionsData).1).length ∧
      (fail k).isSome) :
    (importQuestionsOptimized store questionsData batchSize genId now fail).store = store ∧
    ∃ e, (importQuestionsOptimized store questionsData batchSize genId now fail).result =
      ImportResult.txFail ("Transaction failed: " ++ e) := by
  have hv : ¬ (questionsValidated genId now questionsData).1.isEmpty := by
    intro hv
    rw [List.isEmpty_iff] at hv
    have hnew : (questionsFinal store genId now questionsData).1 = [] := by
      simp only [questionsFinal, hv]
      rfl
    rw [hnew] at hf
    obtain ⟨k, hk, _⟩ := hf
    rw [chunkList] at hk
    simp [chunkGo] at hk
  have hf0 : ∃ k, k < (chunkList batchSize (questionsFinal store genId now questionsData).1).length ∧
      (fail (0 + k)).isSome := by
    simpa using hf
  obtain ⟨e, he⟩ := runChunks_fails fail
    (fun c => [Ev.write "Question" c.length, Ev.write "BELONGS_TO_LESSON" c.length]) 0
    (chunkList batchSize (questionsFinal store genId now questionsData).1) hf0
  unfold importQuestionsOptimized
  rw [if_neg hv, if_neg hb]
  cases hr : runChunks fail
      (fun c => [Ev.write "Question" c.length, Ev.write "BELONGS_TO_LESSON" c.length]) 0
      (chunkList batchSize (questionsFinal store genId now questionsData).1) with
  | mk es r =>
    rw [hr] at he
    simp only at he
    subst he
    exact ⟨rfl, e, rfl⟩

/-- Rollback behaviour of `import_answers_optimized` when some executed
chunk insert raises. -/
theorem importAnswersOptimized_rollback (store : Store)
    (answersData : List AnswerIn) (batchSize : Nat) (genId : Nat → String)
    (now : String) (fail : Nat → Option String) (hb : batchSize ≠ 0)
    (hf : ∃ k, k < (chunkList batchSize (answersFinal store genId now answersData).1).length ∧
      (fail k).isSome) :
    (importAnswersOptimized store answersData batchSize genId now fail).store = store ∧
    ∃ e, (importAnswersOptimized store answersData batchSize genId now fail).result =
      ImportResult.txFail ("Transaction failed: " ++ e) := by
  have hv : ¬ (answersValidated genId now answersData).1.isEmpty := by
    intro hv
    rw [List.isEmpty_iff] at hv
    have hnew : (answersFinal store genId now answersData).1 = [] := by
      simp only [answersFinal, hv]
      rfl
    rw [hnew] at hf
    obtain ⟨k, hk, _⟩ := hf
    rw [chunkList] at hk
    simp [chunkGo] at hk
  have hf0 : ∃ k, k < (chunkList batchSize (answersFinal store genId now answersData).1).length ∧
      (fail (0 + k)).isSome := by
    simpa using hf
  obtain ⟨e, he⟩ := runChunks_fails fail
    (fun c => [Ev.write "Answer" c.length, Ev.write "ANSWERED" c.length,
      Ev.write "ANSWERS_QUESTION" c.length]) 0
    (chunkList batchSize (answersFinal store genId now answersData).1) hf0
  unfold importAnswersOptimized
  rw [if_neg hv, if_neg hb]
  cases hr : runChunks fail
      (fun c => [Ev.write "Answer" c.length, Ev.write "ANSWERED" c.length,
        Ev.write "ANSWERS_QUESTION" c.length]) 0
      (chunkList batchSize (answersFinal store genId now answersData).1) with
  | mk es r =>
    rw [hr] at he
    simp only at he
    subst he
    exact ⟨rfl, e, rfl⟩

/-- Rollback behaviour of `bulk_link_users_knowledge` when the single
relationship insert raises. -/
theorem bulkLinkUsersKnowledge_rollback (store : Store) (linksData : List LinkIn)
    (now : String) (fail : Nat → Option String)
    (hg : (linksNew store now linksData).1 ≠ [])
    (hf : ∃ e, fail 0 = some e) :
    (bulkLinkUsersKnowledge store linksData now fail).store = store ∧
    ∃ e, (bulkLinkUsersKnowledge store linksData now fail).result =
      ImportResult.txFail ("Transaction failed: " ++ e) := by
  have hv : ¬ (linksValidated now linksData).1.isEmpty := by
    intro hv
    rw [List.isEmpty_iff] at hv
    apply hg
    simp only [linksNew, linksFinal, hv]
    rfl
  have hfin : ¬ (linksFinal store now linksData).1.isEmpty := by
    intro hfin
    rw [List.isEmpty_iff] at hfin
    apply hg
    simp only [linksNew, hfin]
    rfl
  obtain ⟨e, he⟩ := hf
  have hgne : ¬ (linksNew store now linksData).1.isEmpty := by
    rw [List.isEmpty_iff]; exact hg
  unfold bulkLinkUsersKnowledge
  rw [if_neg hv, if_neg hfin]
  simp only [if_neg hgne, he]
  exact ⟨trivial, e, rfl⟩

/-- **C1**: for every bulk import call (users — both the module and the API
variant —, questions, answers, LEARNED links), if any executed chunk's
insert raises, the single enclosing transaction is rolled back: the store
after the call equals the store before it (zero records from any chunk
persist), and the call returns the single `Transaction failed: ...` reason
(the `txFail` result, whose `success` is `false` and which reports no
created records). -/
theorem claim_C1_atomic_rollback :
    (∀ (store : Store) (usersData : List UserIn) (batchSize : Nat)
        (genId : Nat → String) (now : String) (fail : Nat → Option String),
      batchSize ≠ 0 →
      (∃ k, k < (chunkList batchSize (moduleUsersNew store genId now usersData).1).length ∧
        (fail k).isSome) →
      (bulkCreateUsers store usersData batchSize genId now fail).store = store ∧
      ∃ e, (bulkCreateUsers store usersData batchSize genId now fail).result =
        ImportResult.txFail ("Transaction failed: " ++ e)) ∧
    (∀ (store : Store) (usersData : List UserIn) (batchSize : Nat)
        (genId : Nat → String) (now : String) (fail : Nat → Option String),
      batchSize ≠ 0 →
      (∃ k, k < (chunkList batchSize (apiUsersNew store genId now usersData).1).length ∧
        (fail k).isSome) →
      (importUsersOptimized store usersData batchSize genId now fail).store = store ∧
      ∃ e, (importUsersOptimized store usersData batchSize genId now fail).result =
        ImportResult.txFail ("Transaction failed: " ++ e)) ∧
    (∀ (store : Store) (questionsData : List QuestionIn) (batchSize : Nat)
        (genId : Nat → String) (now : String) (fail : Nat → Option String),
      batchSize ≠ 0 →
      (∃ k, k < (chunkList batchSize (questionsFinal store genId now questionsData).1).length ∧
        (fail k).isSome) →
      (importQuestionsOptimized store questionsData batchSize genId now fail).store = store ∧
      ∃ e, (importQuestionsOptimized store questionsData batchSize genId now fail).result =
        ImportResult.txFail ("Transaction failed: " ++ e)) ∧
    (∀ (store : Store) (answersData : List AnswerIn) (batchSize : Nat)
        (genId : Nat → String) (now : String) (fail : Nat → Option String),
      batchSize ≠ 0 →
      (∃ k, k < (chunkList batchSize (answersFinal store genId now answersData).1).length ∧
        (fail k).isSome) →
      (importAnswersOptimized store answersData batchSize genId now fail).store = store ∧
      ∃ e, (importAnswersOptimized store answersData batchSize genId now fail).result =
        ImportResult.txFail ("Transaction failed: " ++ e)) ∧
    (∀ (store : Store) (linksData : List LinkIn) (now : String)
        (fail : Nat → Option String),
      (linksNew store now linksData).1 ≠ [] →
      (∃ e, fail 0 = some e) →
      (bulkLinkUsersKnowledge store linksData now fail).store = store ∧
      ∃ e, (bulkLinkUsersKnowledge store linksData now fail).result =
        ImportResult.txFail ("Transaction failed: " ++ e)) :=
  ⟨fun s u b g n f => bulkCreateUsers_rollback s u b g n f,
   fun s u b g n f => importUsersOptimized_rollback s u b g n f,
   fun s q b g n f => importQuestionsOptimized_rollback s q b g n f,
   fun s a b g n f => importAnswersOptimized_rollback s a b g n f,
   fun s l n f => bulkLinkUsersKnowledge_rollback s l n f⟩

/-- Witness for C1: a store failure on the second chunk of a two-chunk
user import rolls the whole call back. -/
theorem claim_C1_atomic_rollback_witness :
    (bulkCreateUsers ⟨[], [], [], [], [], [], [], [], []⟩
      [⟨some "A", some "a@x.com", none, none⟩, ⟨some "B", some "b@x.com", none, none⟩]
      1 (fun n => "g" ++ toString n) "T"
      (fun k => if k = 1 then some "boom" else none)).store =
      ⟨[], [], [], [], [], [], [], [], []⟩ ∧
    ∃ e, (bulkCreateUsers ⟨[], [], [], [], [], [], [], [], []⟩
      [⟨some "A", some "a@x.com", none, none⟩, ⟨some "B", some "b@x.com", none, none⟩]
      1 (fun n => "g" ++ toString n) "T"
      (fun k => if k = 1 then some "boom" else none)).result =
      ImportResult.txFail ("Transaction failed: " ++ e) :=
  claim_C1_atomic_rollback.1 ⟨[], [], [], [], [], [], [], [], []⟩
    [⟨some "A", some "a@x.com", none, none⟩, ⟨some "B", some "b@x.com", none, none⟩]
    1 (fun n => "g" ++ toString n) "T"
    (fun k => if k = 1 then some "boom" else none)
    (by decide) ⟨1, by decide, by decide⟩

/-- **C6**: for every bulk import call, the reported `success` flag is
`true` iff the created count is positive — over all return paths: the
early no-valid-records return and the transaction-failure return report
`success = false` with zero created records, and the normal return sets
`success` to `len(created) > 0`, so a partially-rejected batch with at
least one created record reports `success = true` and a fully-rejected
batch reports `success = false`. -/
theorem claim_C6_success_iff_created :
    (∀ (store : Store) (usersData : List UserIn) (batchSize : Nat)
        (genId : Nat → String) (now : String) (fail : Nat → Option String),
      (bulkCreateUsers store usersData batchSize genId now fail).result.successFlag =
        decide (0 < (bulkCreateUsers store usersData batchSize genId now fail).result.createdCount)) ∧
    (∀ (store : Store) (usersData : List UserIn) (batchSize : Nat)
        (genId : Nat → String) (now : String) (fail : Nat → Option String),
      (importUsersOptimized store usersData batchSize genId now fail).result.successFlag =
        decide (0 < (importUsersOptimized store usersData batchSize genId now fail).result.createdCount)) ∧
    (∀ (store : Store) (questionsData : List QuestionIn) (batchSize : Nat)
        (genId : Nat → String) (now : String) (fail : Nat → Option String),
      (importQuestionsOptimized store questionsData batchSize genId now fail).result.successFlag =
        decide (0 < (importQuestionsOptimized store questionsData batchSize genId now fail).result.createdCount)) ∧
    (∀ (store : Store) (answersData : List AnswerIn) (batchSize : Nat)
        (genId : Nat → String) (now : String) (fail : Nat → Option String),
      (importAnswersOptimized store answersData batchSize genId now fail).result.successFlag =
        decide (0 < (importAnswersOptimized store answersData batchSize genId now fail).result.createdCount)) ∧
    (∀ (store : Store) (linksData : List LinkIn) (now : String)
        (fail : Nat → Option String),
      (bulkLinkUsersKnowledge store linksData now fail).result.successFlag =
        decide (0 < (bulkLinkUsersKnowledge store linksData now fail).result.createdCount)) := by
  refine ⟨?_, ?_, ?_, ?_, ?_⟩
  · intro store usersData batchSize genId now fail
    unfold bulkCreateUsers
    by_cases hv : (moduleUsersValidated genId now usersData).1.isEmpty
    · rw [if_pos hv]; rfl
    · rw [if_neg hv]
      by_cases hb : batchSize = 0
      · rw [if_pos hb]; rfl
      · rw [if_neg hb]
        cases hr : runChunks fail (fun c => [Ev.write "User" c.length]) 0
            (chunkList batchSize (moduleUsersNew store genId now usersData).1) with
        | mk es r =>
          cases r with
          | error e => rfl
          | ok created => simp [ImportResult.successFlag, ImportResult.createdCount]
  · intro store usersData batchSize genId now fail
    unfold importUsersOptimized
    by_cases hv : (apiUsersValidated genId now usersData).1.isEmpty
    · rw [if_pos hv]; rfl
    · rw [if_neg hv]
      by_cases hb : batchSize = 0
      · rw [if_pos hb]; rfl
      · rw [if_neg hb]
        cases hr : runChunks fail (fun c => [Ev.write "User" c.length]) 0
            (chunkList batchSize (apiUsersNew store genId now usersData).1) with
        | mk es r =>
          cases r with
          | error e => rfl
          | ok created => simp [ImportResult.successFlag, ImportResult.createdCount]
  · intro store questionsData batchSize genId now fail
    unfold importQuestionsOptimized
    by_cases hv : (questionsValidated genId now questionsData).1.isEmpty
    · rw [if_pos hv]; rfl
    · rw [if_neg hv]
      by_cases hb : batchSize = 0
      · rw [if_pos hb]; rfl
      · rw [if_neg hb]
        cases hr : runChunks fail (fun c => [Ev.write "Question" c.length, Ev.write "BELONGS_TO_LESSON" c.length]) 0
            (chunkList batchSize (questionsFinal store genId now questionsData).1) with
        | mk es r =>
          cases r with
          | error e => rfl
          | ok created => simp [ImportResult.successFlag, ImportResult.createdCount]
  · intro store answersData batchSize genId now fail
    unfold importAnswersOptimized
    by_cases hv : (answersValidated genId now answersData).1.isEmpty
    · rw [if_pos hv]; rfl
    · rw [if_neg hv]
      by_cases hb : batchSize = 0
      · rw [if_pos hb]; rfl
      · rw [if_neg hb]
        cases hr : runChunks fail (fun c => [Ev.write "Answer" c.length, Ev.write "ANSWERED" c.length,
            Ev.write "ANSWERS_QUESTION" c.length]) 0
            (chunkList batchSize (answersFinal store genId now answersData).1) with
        | mk es r =>
          cases r with
          | error e => rfl
          | ok created => simp [ImportResult.successFlag, ImportResult.createdCount]
  · intro store linksData now fail
    unfold bulkLinkUsersKnowledge
    by_cases hv : (linksValidated now linksData).1.isEmpty
    · rw [if_pos hv]; rfl
    · rw [if_neg hv]
      by_cases hf1 : (linksFinal store now linksData).1.isEmpty
      · rw [if_pos hf1]; rfl
      · rw [if_neg hf1]
        by_cases hg : (linksNew store now linksData).1.isEmpty
        · simp only [if_pos hg]; rfl
        · simp only [if_neg hg]
          cases hr : fail 0 with
          | some e => rfl
          | none => simp [ImportResult.successFlag, ImportResult.createdCount]

theorem validateLinks_mem (now : String) :
    ∀ (i : Nat) (l : List LinkIn) (r : LearnedRec),
      r ∈ (validateLinks now i l).1 → ∃ li ∈ l, r = mkLearnedRec now li := by
  intro i l
  induction l generalizing i with
  | nil => intro r hr; simp [validateLinks] at hr
  | cons x xs ih =>
    intro r hr
    by_cases hx : x.user_id.isNone ∨ x.knowledge_id.isNone
    · rw [validateLinks, if_pos hx] at hr
      obtain ⟨li, hli, hrli⟩ := ih (i + 1) r hr
      exact ⟨li, List.mem_cons_of_mem x hli, hrli⟩
    · rw [validateLinks, if_neg hx] at hr
      rcases List.mem_cons.mp hr with h | h
      · exact ⟨x, List.mem_cons_self x xs, h⟩
      · obtain ⟨li, hli, hrli⟩ := ih (i + 1) r h
        exact ⟨li, List.mem_cons_of_mem x hli, hrli⟩

theorem filterLinksFk_sub (eu ek : List String) :
    ∀ (l : List LearnedRec) (r : LearnedRec),
      r ∈ (filterLinksFk eu ek l).1 → r ∈ l := by
  intro l
  induction l with
  | nil => intro r hr; simp [filterLinksFk] at hr
  | cons x xs ih =>
    intro r hr
    rw [filterLinksFk] at hr
    by_cases h1 : x.userId ∉ eu
    · rw [if_pos h1] at hr
      exact List.mem_cons_of_mem x (ih r hr)
    · rw [if_neg h1] at hr
      by_cases h2 : x.knowledgeId ∉ ek
      · rw [if_pos h2] at hr
        exact List.mem_cons_of_mem x (ih r hr)
      · rw [if_neg h2] at hr
        rcases List.mem_cons.mp hr with h | h
        · exact h ▸ List.mem_cons_self x xs
        · exact List.mem_cons_of_mem x (ih r h)

theorem filterLinksExisting_sub (keys : List String) :
    ∀ (l : List LearnedRec) (r : LearnedRec),
      r ∈ (filterLinksExisting keys l).1 → r ∈ l := by
  intro l
  induction l with
  | nil => intro r hr; simp [filterLinksExisting] at hr
  | cons x xs ih =>
    intro r hr
    rw [filterLinksExisting] at hr
    by_cases h1 : x.userId ++ "|" ++ x.knowledgeId ∈ keys
    · rw [if_pos h1] at hr
      exact List.mem_cons_of_mem x (ih r hr)
    · rw [if_neg h1] at hr
      rcases List.mem_cons.mp hr with h | h
      · exact h ▸ List.mem_cons_self x xs
      · exact List.mem_cons_of_mem x (ih r h)

/-- Every record actually inserted by `bulk_link_users_knowledge` is the
`link_data` dict of some input record. -/
theorem linksNew_mem (store : Store) (now : String) (linksData : List LinkIn)
    (r : LearnedRec) (hr : r ∈ (linksNew store now linksData).1) :
    ∃ li ∈ linksData, r = mkLearnedRec now li := by
  have h1 : r ∈ (linksFinal store now linksData).1 :=
    filterLinksExisting_sub _ _ r hr
  have h2 : r ∈ (linksValidated now linksData).1 :=
    filterLinksFk_sub _ _ _ r h1
  exact validateLinks_mem now 0 linksData r h2

/-- **C9**: every operation writing a LEARNED relationship's progress —
single link creation (`link_user_knowledge`), bulk link creation
(`bulk_link_users_knowledge`), and the progress update
(`update_user_knowledge_progress`) — stores `min(100, max(0, input))` for
the caller-supplied progress, a value that always lies in 0–100, so every
relationship present after the write is either an untouched pre-existing
one or carries a clamped progress. -/
theorem claim_C9_progress_clamped :
    (∀ (p : Int), 0 ≤ clamp01 p ∧ clamp01 p ≤ 100) ∧
    (∀ (store : Store) (userId knowledgeId status : String) (p : Int)
        (now : String) (r : LearnedRec),
      r ∈ (linkUserKnowledge store userId knowledgeId status p now).1.learned →
      r ∈ store.learned ∨ r.progress = clamp01 p) ∧
    (∀ (store : Store) (userId knowledgeId : String) (p : Int)
        (status : Option String) (now : String) (r : LearnedRec),
      r ∈ (updateUserKnowledgeProgress store userId knowledgeId (some p) status now).1.learned →
      r ∈ store.learned ∨ r.progress = clamp01 p) ∧
    (∀ (store : Store) (linksData : List LinkIn) (now : String)
        (fail : Nat → Option String) (r : LearnedRec),
      r ∈ (bulkLinkUsersKnowledge store linksData now fail).store.learned →
      r ∈ store.learned ∨ ∃ li ∈ linksData, r.progress = clamp01 (li.progress.getD 0)) := by
  refine ⟨?_, ?_, ?_, ?_⟩
  · intro p
    unfold clamp01
    constructor
    · exact le_min (by norm_num) (le_max_left 0 p)
    · exact min_le_left 100 _
  · intro store userId knowledgeId status p now r hr
    unfold linkUserKnowledge at hr
    split at hr
    · exact Or.inl hr
    · split at hr
      · exact Or.inl hr
      · split at hr
        · exact Or.inl hr
        · simp only at hr
          rcases List.mem_append.mp hr with h | h
          · exact Or.inl h
          · rcases List.mem_singleton.mp h with rfl
            exact Or.inr rfl
  · intro store userId knowledgeId p status now r hr
    unfold updateUserKnowledgeProgress at hr
    split at hr
    · exact Or.inl hr
    · simp only at hr
      obtain ⟨x, hx, hrx⟩ := List.mem_map.mp hr
      by_cases hm : x.userId = userId ∧ x.knowledgeId = knowledgeId
      · rw [if_pos hm] at hrx
        subst hrx
        exact Or.inr rfl
      · rw [if_neg hm] at hrx
        subst hrx
        exact Or.inl hx
  · intro store linksData now fail r hr
    unfold bulkLinkUsersKnowledge at hr
    by_cases hv : (linksValidated now linksData).1.isEmpty
    · rw [if_pos hv] at hr
      exact Or.inl hr
    · rw [if_neg hv] at hr
      by_cases hf1 : (linksFinal store now linksData).1.isEmpty
      · rw [if_pos hf1] at hr
        exact Or.inl hr
      · rw [if_neg hf1] at hr
        by_cases hg : (linksNew store now linksData).1.isEmpty
        · simp only [if_pos hg] at hr
          exact Or.inl hr
        · simp only [if_neg hg] at hr
          cases hfl : fail 0 with
          | some e =>
            rw [hfl] at hr
            exact Or.inl hr
          | none =>
            rw [hfl] at hr
            simp only at hr
            rcases List.mem_append.mp hr with h | h
            · exact Or.inl h
            · obtain ⟨li, hli, hrli⟩ := linksNew_mem store now linksData r h
              subst hrli
              exact Or.inr ⟨li, hli, rfl⟩

/-- Witness for C9: a bulk link with progress 150 is stored clamped to
100; the clamp is within 0–100. -/
theorem claim_C9_progress_clamped_witness :
    (0 ≤ clamp01 150 ∧ clamp01 150 ≤ 100) ∧
    ((⟨"u1", "k1", "learning", 100, "T", "T", "T"⟩ : LearnedRec) ∈
        (⟨[⟨"u1", "A", "a@x.com", 7, "T0", "T0"⟩], [], [], [], [], [], [], ["k1"], []⟩ : Store).learned ∨
      (⟨"u1", "k1", "learning", 100, "T", "T", "T"⟩ : LearnedRec).progress =
        clamp01 ((some (150 : Int)).getD 0)) := by
  constructor
  · exact claim_C9_progress_clamped.1 150
  · have hmem : (⟨"u1", "k1", "learning", 100, "T", "T", "T"⟩ : LearnedRec) ∈
        (bulkLinkUsersKnowledge
          ⟨[⟨"u1", "A", "a@x.com", 7, "T0", "T0"⟩], [], [], [], [], [], [], ["k1"], []⟩
          [⟨some "u1", some "k1", none, some 150⟩] "T" (fun _ => none)).store.learned := by
      decide
    have := claim_C9_progress_clamped.2.2.2
      ⟨[⟨"u1", "A", "a@x.com", 7, "T0", "T0"⟩], [], [], [], [], [], [], ["k1"], []⟩
      [⟨some "u1", some "k1", none, some 150⟩] "T" (fun _ => none)
      ⟨"u1", "k1", "learning", 100, "T", "T", "T"⟩ hmem
    rcases this with h | ⟨li, hli, hp⟩
    · exact Or.inl h
    · rcases List.mem_singleton.mp hli with rfl
      exact Or.inr hp

/-- **C10**: calling `update_user_knowledge_progress` on an existing
(user, knowledge) LEARNED relationship with a status outside
`{learning, completed, mastered, reviewing}` leaves every stored `status`
unchanged — only `updatedAt` (always) and `progress` (when supplied,
clamped) are modified, and `linkedAt`/`createdAt` are untouched — and the
call still returns the success result with no error about the ignored
status. -/
theorem claim_C10_invalid_status_ignored (store : Store)
    (userId knowledgeId : String) (progress : Option Int) (status : String)
    (now : String) (r0 : LearnedRec)
    (hs : status ∉ allowedStatuses)
    (hfind : store.learned.find? (fun r => r.userId = userId ∧ r.knowledgeId = knowledgeId) = some r0) :
    (updateUserKnowledgeProgress store userId knowledgeId progress (some status) now).1.learned =
      store.learned.map (fun r =>
        if r.userId = userId ∧ r.knowledgeId = knowledgeId then
          { r with
            updatedAt := now
            progress := match progress with
              | some p => clamp01 p
              | none => r.progress }
        else r) ∧
    (updateUserKnowledgeProgress store userId knowledgeId progress (some status) now).2 =
      OpResult.ok "User knowledge progress updated"
        { r0 with
          updatedAt := now
          progress := match progress with
            | some p => clamp01 p
            | none => r0.progress } := by
  have happly : ∀ r : LearnedRec, applyUpdate now progress (some status) r =
      { r with
        updatedAt := now
        progress := match progress with
          | some p => clamp01 p
          | none => r.progress } := by
    intro r
    unfold applyUpdate
    simp only [if_neg hs]
  unfold updateUserKnowledgeProgress
  rw [hfind]
  constructor
  · simp only
    apply List.map_congr_left
    intro r _
    by_cases hm : r.userId = userId ∧ r.knowledgeId = knowledgeId
    · rw [if_pos hm, if_pos hm, happly]
    · rw [if_neg hm, if_neg hm]
  · simp only [happly]

/-- Witness for C10: updating with the disallowed status `bogus` keeps
`status = "learning"` while bumping `updatedAt` and clamping the supplied
progress. -/
theorem claim_C10_invalid_status_ignored_witness :
    (updateUserKnowledgeProgress
        ⟨[], [], [], [], [], [], [], [], [⟨"u1", "k1", "learning", 10, "T0", "T0", "T0"⟩]⟩
        "u1" "k1" (some 200) (some "bogus") "T1").1.learned =
      List.map (fun r =>
        if r.userId = "u1" ∧ r.knowledgeId = "k1" then
          { r with
            updatedAt := "T1"
            progress := match (some (200 : Int)) with
              | some p => clamp01 p
              | none => r.progress }
        else r) [⟨"u1", "k1", "learning", 10, "T0", "T0", "T0"⟩] ∧
    (updateUserKnowledgeProgress
        ⟨[], [], [], [], [], [], [], [], [⟨"u1", "k1", "learning", 10, "T0", "T0", "T0"⟩]⟩
        "u1" "k1" (some 200) (some "bogus") "T1").2 =
      OpResult.ok "User knowledge progress updated"
        { (⟨"u1", "k1", "learning", 10, "T0", "T0", "T0"⟩ : LearnedRec) with
          updatedAt := "T1"
          progress := match (some (200 : Int)) with
            | some p => clamp01 p
            | none => (10 : Int) } :=
  claim_C10_invalid_status_ignored
    ⟨[], [], [], [], [], [], [], [], [⟨"u1", "k1", "learning", 10, "T0", "T0", "T0"⟩]⟩
    "u1" "k1" (some 200) "bogus" "T1" ⟨"u1", "k1", "learning", 10, "T0", "T0", "T0"⟩
    (by decide) (by decide)

theorem runChunks_ok (fail : Nat → Option String) (hf : ∀ k, fail k = none)
    (evs : List α → List Ev) (k : Nat) (cs : List (List α)) :
    (runChunks fail evs k cs).2 = Except.ok cs.join := by
  induction cs generalizing k with
  | nil => rfl
  | cons c cs ih =>
    simp only [runChunks, hf k]
    have := ih (k + 1)
    cases hr : runChunks fail evs (k + 1) cs with
    | mk es r =>
      rw [hr] at this
      simp at this
      subst this
      simp [List.join]

/-- Outcome of `bulk_create_users` on the happy path: every surviving
record is created, independently of the chunk size. -/
theorem bulkCreateUsers_noFail (store : Store) (usersData : List UserIn)
    (batchSize : Nat) (genId : Nat → String) (now : String)
    (fail : Nat → Option String) (hn : batchSize ≠ 0)
    (hv : ¬ (moduleUsersValidated genId now usersData).1.isEmpty)
    (hf : ∀ k, fail k = none) :
    (bulkCreateUsers store usersData batchSize genId now fail).store =
      { store with users := store.users ++ (moduleUsersNew store genId now usersData).1 } ∧
    (bulkCreateUsers store usersData batchSize genId now fail).result =
      ImportResult.done (moduleUsersNew store genId now usersData).1
        usersData.length (moduleUsersNew store genId now usersData).1.length
        ((moduleUsersValidated genId now usersData).2 ++ (moduleUsersNew store genId now usersData).2).length
        ((moduleUsersValidated genId now usersData).2 ++ (moduleUsersNew store genId now usersData).2)
        (decide (0 < (moduleUsersNew store genId now usersData).1.length)) := by
  have hok := runChunks_ok fail hf (fun c => [Ev.write "User" c.length]) 0
    (chunkList batchSize (moduleUsersNew store genId now usersData).1)
  rw [chunkList_join batchSize hn] at hok
  unfold bulkCreateUsers
  rw [if_neg hv, if_neg hn]
  cases hr : runChunks fail (fun c => [Ev.write "User" c.length]) 0
      (chunkList batchSize (moduleUsersNew store genId now usersData).1) with
  | mk es r =>
    rw [hr] at hok
    simp only at hok
    subst hok
    exact ⟨rfl, rfl⟩

/-- Outcome of `import_users_optimized` on the happy path. -/
theorem importUsersOptimized_noFail (store : Store) (usersData : List UserIn)
    (batchSize : Nat) (genId : Nat → String) (now : String)
    (fail : Nat → Option String) (hn : batchSize ≠ 0)
    (hv : ¬ (apiUsersValidated genId now usersData).1.isEmpty)
    (hf : ∀ k, fail k = none) :
    (importUsersOptimized store usersData batchSize genId now fail).store =
      { store with users := store.users ++ (apiUsersNew store genId now usersData).1 } ∧
    (importUsersOptimized store usersData batchSize genId now fail).result =
      ImportResult.done (apiUsersNew store genId now usersData).1
        usersData.length (apiUsersNew store genId now usersData).1.length
        ((apiUsersValidated genId now usersData).2 ++ (apiUsersNew store genId now usersData).2).length
        ((apiUsersValidated genId now usersData).2 ++ (apiUsersNew store genId now usersData).2)
        (decide (0 < (apiUsersNew store genId now usersData).1.length)) := by
  have hok := runChunks_ok fail hf (fun c => [Ev.write "User" c.length]) 0
    (chunkList batchSize (apiUsersNew store genId now usersData).1)
  rw [chunkList_join batchSize hn] at hok
  unfold importUsersOptimized
  rw [if_neg hv, if_neg hn]
  cases hr : runChunks fail (fun c => [Ev.write "User" c.length]) 0
      (chunkList batchSize (apiUsersNew store genId now usersData).1) with
  | mk es r =>
    rw [hr] at hok
    simp only at hok
    subst hok
    exact ⟨rfl, rfl⟩

/-- Outcome of `import_questions_optimized` on the happy path. -/
theorem importQuestionsOptimized_noFail (store : Store)
    (questionsData : List QuestionIn) (batchSize : Nat) (genId : Nat → String)
    (now : String) (fail : Nat → Option String) (hn : batchSize ≠ 0)
    (hv : ¬ (questionsValidated genId now questionsData).1.isEmpty)
    (hf : ∀ k, fail k = none) :
    (importQuestionsOptimized store questionsData batchSize genId now fail).store =
      { store with
        questions := store.questions ++ (questionsFinal store genId now questionsData).1.map (·.node)
        questionLessonRels := store.questionLessonRels ++
          (questionsFinal store genId now questionsData).1.map (fun q => (q.node.id, q.lesson_id)) } ∧
    (importQuestionsOptimized store questionsData batchSize genId now fail).result =
      ImportResult.done (questionsFinal store genId now questionsData).1
        questionsData.length (questionsFinal store genId now questionsData).1.length
        ((questionsValidated genId now questionsData).2 ++ (questionsFinal store genId now questionsData).2).length
        ((questionsValidated genId now questionsData).2 ++ (questionsFinal store genId now questionsData).2)
        (decide (0 < (questionsFinal store genId now questionsData).1.length)) := by
  have hok := runChunks_ok fail hf
    (fun c => [Ev.write "Question" c.length, Ev.write "BELONGS_TO_LESSON" c.length]) 0
    (chunkList batchSize (questionsFinal store genId now questionsData).1)
  rw [chunkList_join batchSize hn] at hok
  unfold importQuestionsOptimized
  rw [if_neg hv, if_neg hn]
  cases hr : runChunks fail
      (fun c => [Ev.write "Question" c.length, Ev.write "BELONGS_TO_LESSON" c.length]) 0
      (chunkList batchSize (questionsFinal store genId now questionsData).1) with
  | mk es r =>
    rw [hr] at hok
    simp only at hok
    subst hok
    exact ⟨rfl, rfl⟩

/-- Outcome of `import_answers_optimized` on the happy path. -/
theorem importAnswersOptimized_noFail (store : Store)
    (answersData : List AnswerIn) (batchSize : Nat) (genId : Nat → String)
    (now : String) (fail : Nat → Option String) (hn : batchSize ≠ 0)
    (hv : ¬ (answersValidated genId now answersData).1.isEmpty)
    (hf : ∀ k, fail k = none) :
    (importAnswersOptimized store answersData batchSize genId now fail).store =
      { store with
        answers := store.answers ++ (answersFinal store genId now answersData).1.map (·.node)
        userAnswerRels := store.userAnswerRels ++
          (answersFinal store genId now answersData).1.map (fun a => (a.user_id, a.node.id))
        answerQuestionRels := store.answerQuestionRels ++
          (answersFinal store genId now answersData).1.map (fun a => (a.node.id, a.question_id)) } ∧
    (importAnswersOptimized store answersData batchSize genId now fail).result =
      ImportResult.done (answersFinal store genId now answersData).1
        answersData.length (answersFinal store genId now answersData).1.length
        ((answersValidated genId now answersData).2 ++ (answersFinal store genId now answersData).2).length
        ((answersValidated genId now answersData).2 ++ (answersFinal store genId now answersData).2)
        (decide (0 < (answersFinal store genId now answersData).1.length)) := by
  have hok := runChunks_ok fail hf
    (fun c => [Ev.write "Answer" c.length, Ev.write "ANSWERED" c.length,
      Ev.write "ANSWERS_QUESTION" c.length]) 0
    (chunkList batchSize (answersFinal store genId now answersData).1)
  rw [chunkList_join batchSize hn] at hok
  unfold importAnswersOptimized
  rw [if_neg hv, if_neg hn]
  cases hr : runChunks fail
      (fun c => [Ev.write "Answer" c.length, Ev.write "ANSWERED" c.length,
        Ev.write "ANSWERS_QUESTION" c.length]) 0
      (chunkList batchSize (answersFinal store genId now answersData).1) with
  | mk es r =>
    rw [hr] at hok
    simp only at hok
    subst hok
    exact ⟨rfl, rfl⟩

/-- **C3**: for every input list and every positive `batchSize = N`,
running a bulk import with `batchSize = N` and with `batchSize = 1`
produces the same returned result (same created list, same rejection
reasons, same counts, same success flag) and the same final store, for
each of the four chunked bulk functions; only the trace of store
round-trips differs. -/
theorem claim_C3_chunking_transparent :
    (∀ (store : Store) (usersData : List UserIn) (batchSize : Nat)
        (genId : Nat → String) (now : String) (fail : Nat → Option String),
      batchSize ≠ 0 → (∀ k, fail k = none) →
      (bulkCreateUsers store usersData batchSize genId now fail).store =
        (bulkCreateUsers store usersData 1 genId now fail).store ∧
      (bulkCreateUsers store usersData batchSize genId now fail).result =
        (bulkCreateUsers store usersData 1 genId now fail).result) ∧
    (∀ (store : Store) (usersData : List UserIn) (batchSize : Nat)
        (genId : Nat → String) (now : String) (fail : Nat → Option String),
      batchSize ≠ 0 → (∀ k, fail k = none) →
      (importUsersOptimized store usersData batchSize genId now fail).store =
        (importUsersOptimized store usersData 1 genId now fail).store ∧
      (importUsersOptimized store usersData batchSize genId now fail).result =
        (importUsersOptimized store usersData 1 genId now fail).result) ∧
    (∀ (store : Store) (questionsData : List QuestionIn) (batchSize : Nat)
        (genId : Nat → String) (now : String) (fail : Nat → Option String),
      batchSize ≠ 0 → (∀ k, fail k = none) →
      (importQuestionsOptimized store questionsData batchSize genId now fail).store =
        (importQuestionsOptimized store questionsData 1 genId now fail).store ∧
      (importQuestionsOptimized store questionsData batchSize genId now fail).result =
        (importQuestionsOptimized store questionsData 1 genId now fail).result) ∧
    (∀ (store : Store) (answersData : List AnswerIn) (batchSize : Nat)
        (genId : Nat → String) (now : String) (fail : Nat → Option String),
      batchSize ≠ 0 → (∀ k, fail k = none) →
      (importAnswersOptimized store answersData batchSize genId now fail).store =
        (importAnswersOptimized store answersData 1 genId now fail).store ∧
      (importAnswersOptimized store answersData batchSize genId now fail).result =
        (importAnswersOptimized store answersData 1 genId now fail).result) := by
  refine ⟨?_, ?_, ?_, ?_⟩
  · intro store usersData batchSize genId now fail hn hf
    by_cases hv : (moduleUsersValidated genId now usersData).1.isEmpty
    · unfold bulkCreateUsers
      simp only [if_pos hv]
      exact ⟨trivial, trivial⟩
    · obtain ⟨hs1, hr1⟩ := bulkCreateUsers_noFail store usersData batchSize genId now fail hn hv hf
      obtain ⟨hs2, hr2⟩ := bulkCreateUsers_noFail store usersData 1 genId now fail one_ne_zero hv hf
      rw [hs1, hs2, hr1, hr2]
      exact ⟨rfl, rfl⟩
  · intro store usersData batchSize genId now fail hn hf
    by_cases hv : (apiUsersValidated genId now usersData).1.isEmpty
    · unfold importUsersOptimized
      simp only [if_pos hv]
      exact ⟨trivial, trivial⟩
    · obtain ⟨hs1, hr1⟩ := importUsersOptimized_noFail store usersData batchSize genId now fail hn hv hf
      obtain ⟨hs2, hr2⟩ := importUsersOptimized_noFail store usersData 1 genId now fail one_ne_zero hv hf
      rw [hs1, hs2, hr1, hr2]
      exact ⟨rfl, rfl⟩
  · intro store questionsData batchSize genId now fail hn hf
    by_cases hv : (questionsValidated genId now questionsData).1.isEmpty
    · unfold importQuestionsOptimized
      simp only [if_pos hv]
      exact ⟨trivial, trivial⟩
    · obtain ⟨hs1, hr1⟩ := importQuestionsOptimized_noFail store questionsData batchSize genId now fail hn hv hf
      obtain ⟨hs2, hr2⟩ := importQuestionsOptimized_noFail store questionsData 1 genId now fail one_ne_zero hv hf
      rw [hs1, hs2, hr1, hr2]
      exact ⟨rfl, rfl⟩
  · intro store answersData batchSize genId now fail hn hf
    by_cases hv : (answersValidated genId now answersData).1.isEmpty
    · unfold importAnswersOptimized
      simp only [if_pos hv]
      exact ⟨trivial, trivial⟩
    · obtain ⟨hs1, hr1⟩ := importAnswersOptimized_noFail store answersData batchSize genId now fail hn hv hf
      obtain ⟨hs2, hr2⟩ := importAnswersOptimized_noFail store answersData 1 genId now fail one_ne_zero hv hf
      rw [hs1, hs2, hr1, hr2]
      exact ⟨rfl, rfl⟩

/-- Witness for C3: a three-record user import behaves identically with
`batchSize = 2` and `batchSize = 1`. -/
theorem claim_C3_chunking_transparent_witness :
    (bulkCreateUsers ⟨[], [], [], [], [], [], [], [], []⟩
        [⟨some "A", some "a@x.com", none, none⟩, ⟨some "B", some "b@x.com", none, none⟩,
          ⟨none, none, none, none⟩]
        2 (fun n => "g" ++ toString n) "T" (fun _ => none)).store =
      (bulkCreateUsers ⟨[], [], [], [], [], [], [], [], []⟩
        [⟨some "A", some "a@x.com", none, none⟩, ⟨some "B", some "b@x.com", none, none⟩,
          ⟨none, none, none, none⟩]
        1 (fun n => "g" ++ toString n) "T" (fun _ => none)).store ∧
    (bulkCreateUsers ⟨[], [], [], [], [], [], [], [], []⟩
        [⟨some "A", some "a@x.com", none, none⟩, ⟨some "B", some "b@x.com", none, none⟩,
          ⟨none, none, none, none⟩]
        2 (fun n => "g" ++ toString n) "T" (fun _ => none)).result =
      (bulkCreateUsers ⟨[], [], [], [], [], [], [], [], []⟩
        [⟨some "A", some "a@x.com", none, none⟩, ⟨some "B", some "b@x.com", none, none⟩,
          ⟨none, none, none, none⟩]
        1 (fun n => "g" ++ toString n) "T" (fun _ => none)).result :=
  claim_C3_chunking_transparent.1 ⟨[], [], [], [], [], [], [], [], []⟩
    [⟨some "A", some "a@x.com", none, none⟩, ⟨some "B", some "b@x.com", none, none⟩,
      ⟨none, none, none, none⟩]
    2 (fun n => "g" ++ toString n) "T" (fun _ => none)
    (by decide) (fun _ => rfl)

/-- A field-valid question at any input position yields a validated row
carrying its `lesson_id` and `title`. -/
theorem validateQuestions_of_get (genId : Nat → String) (now : String) :
    ∀ (l : List QuestionIn) (i c j : Nat) (q : QuestionIn),
      l.get? j = some q → q.missingFields.isEmpty →
      ∃ row ∈ (validateQuestions genId now i c l).1,
        row.lesson_id = q.lesson_id.getD "" ∧ row.node.title = q.title.getD "" := by
  intro l
  induction l with
  | nil => intro i c j q hj; simp at hj
  | cons x xs ih =>
    intro i c j q hj hq
    cases j with
    | zero =>
      simp at hj
      subst hj
      rw [validateQuestions, if_pos hq]
      exact ⟨mkQuestionRow now (genId c) x, List.mem_cons_self _ _, rfl, rfl⟩
    | succ j =>
      simp only [List.get?_cons_succ] at hj
      by_cases hx : x.missingFields.isEmpty
      · rw [validateQuestions, if_pos hx]
        obtain ⟨row, hrow, hfields⟩ := ih (i + 1) (c + 1) j q hj hq
        exact ⟨row, List.mem_cons_of_mem _ hrow, hfields⟩
      · rw [validateQuestions, if_neg hx]
        obtain ⟨row, hrow, hfields⟩ := ih (i + 1) c j q hj hq
        exact ⟨row, hrow, hfields⟩

/-- A validated row whose lesson is not in the existence set contributes
the `Lesson ... not found` reason. -/
theorem filterQuestionsLesson_reject (E : List String) :
    ∀ (l : List QuestionRow) (row : QuestionRow), row ∈ l → row.lesson_id ∉ E →
      ("Lesson " ++ row.lesson_id ++ " not found for question " ++ row.node.title) ∈
        (filterQuestionsLesson E l).2 := by
  intro l
  induction l with
  | nil => intro row hrow; simp at hrow
  | cons x xs ih =>
    intro row hrow hE
    rw [filterQuestionsLesson]
    rcases List.mem_cons.mp hrow with h | h
    · subst h
      rw [if_neg hE]
      exact List.mem_cons_self _ _
    · by_cases hx : x.lesson_id ∈ E
      · rw [if_pos hx]
        exact ih row h hE
      · rw [if_neg hx]
        exact List.mem_cons_of_mem _ (ih row h hE)

/-- Every question row surviving the lesson filter references a lesson of
the existence set. -/
theorem filterQuestionsLesson_kept (E : List String) :
    ∀ (l : List QuestionRow) (row : QuestionRow),
      row ∈ (filterQuestionsLesson E l).1 → row.lesson_id ∈ E := by
  intro l
  induction l with
  | nil => intro row hrow; simp [filterQuestionsLesson] at hrow
  | cons x xs ih =>
    intro row hrow
    rw [filterQuestionsLesson] at hrow
    by_cases hx : x.lesson_id ∈ E
    · rw [if_pos hx] at hrow
      rcases List.mem_cons.mp hrow with h | h
      · subst h; exact hx
      · exact ih row h
    · rw [if_neg hx] at hrow
      exact ih row hrow

/-- A field-valid answer at any input position yields a validated row
carrying its `user_id` and `question_id`. -/
theorem validateAnswers_of_get (genId : Nat → String) (now : String) :
    ∀ (l : List AnswerIn) (i c j : Nat) (a : AnswerIn),
      l.get? j = some a → a.missingFields.isEmpty →
      ∃ row ∈ (validateAnswers genId now i c l).1,
        row.user_id = a.user_id.getD "" ∧ row.question_id = a.question_id.getD "" := by
  intro l
  induction l with
  | nil => intro i c j a hj; simp at hj
  | cons x xs ih =>
    intro i c j a hj ha
    cases j with
    | zero =>
      simp at hj
      subst hj
      rw [validateAnswers, if_pos ha]
      exact ⟨mkAnswerRow now (genId c) x, List.mem_cons_self _ _, rfl, rfl⟩
    | succ j =>
      simp only [List.get?_cons_succ] at hj
      by_cases hx : x.missingFields.isEmpty
      · rw [validateAnswers, if_pos hx]
        obtain ⟨row, hrow, hfields⟩ := ih (i + 1) (c + 1) j a hj ha
        exact ⟨row, List.mem_cons_of_mem _ hrow, hfields⟩
      · rw [validateAnswers, if_neg hx]
        obtain ⟨row, hrow, hfields⟩ := ih (i + 1) c j a hj ha
        exact ⟨row, hrow, hfields⟩

/-- An answer row whose user is missing contributes the `User ... not
found` reason. -/
theorem filterAnswersFk_reject_user (eu eq' : List String) :
    ∀ (l : List AnswerRow) (row : AnswerRow), row ∈ l → row.user_id ∉ eu →
      ("User " ++ row.user_id ++ " not found") ∈ (filterAnswersFk eu eq' l).2 := by
  intro l
  induction l with
  | nil => intro row hrow; simp at hrow
  | cons x xs ih =>
    intro row hrow hu
    rw [filterAnswersFk]
    rcases List.mem_cons.mp hrow with h | h
    · subst h
      rw [if_pos hu]
      exact List.mem_cons_self _ _
    · by_cases hx : x.user_id ∉ eu
      · rw [if_pos hx]
        exact List.mem_cons_of_mem _ (ih row h hu)
      · rw [if_neg hx]
        by_cases hx2 : x.question_id ∉ eq'
        · rw [if_pos hx2]
          exact List.mem_cons_of_mem _ (ih row h hu)
        · rw [if_neg hx2]
          exact ih row h hu

/-- An answer row whose user exists but whose question is missing
contributes the `Question ... not found` reason. -/
theorem filterAnswersFk_reject_question (eu eq' : List String) :
    ∀ (l : List AnswerRow) (row : AnswerRow), row ∈ l →
      row.user_id ∈ eu → row.question_id ∉ eq' →
      ("Question " ++ row.question_id ++ " not found") ∈ (filterAnswersFk eu eq' l).2 := by
  intro l
  induction l with
  | nil => intro row hrow; simp at hrow
  | cons x xs ih =>
    intro row hrow hu hq
    rw [filterAnswersFk]
    rcases List.mem_cons.mp hrow with h | h
    · subst h
      rw [if_neg (by simpa using hu), if_pos hq]
      exact List.mem_cons_self _ _
    · by_cases hx : x.user_id ∉ eu
      · rw [if_pos hx]
        exact List.mem_cons_of_mem _ (ih row h hu hq)
      · rw [if_neg hx]
        by_cases hx2 : x.question_id ∉ eq'
        · rw [if_pos hx2]
          exact List.mem_cons_of_mem _ (ih row h hu hq)
        · rw [if_neg hx2]
          exact ih row h hu hq

/-- Every answer row surviving the foreign-key filter references a user
and a question of the existence sets. -/
theorem filterAnswersFk_kept (eu eq' : List String) :
    ∀ (l : List AnswerRow) (row : AnswerRow),
      row ∈ (filterAnswersFk eu eq' l).1 →
      row.user_id ∈ eu ∧ row.question_id ∈ eq' := by
  intro l
  induction l with
  | nil => intro row hrow; simp [filterAnswersFk] at hrow
  | cons x xs ih =>
    intro row hrow
    rw [filterAnswersFk] at hrow
    by_cases hx : x.user_id ∉ eu
    · rw [if_pos hx] at hrow
      exact ih row hrow
    · rw [if_neg hx] at hrow
      by_cases hx2 : x.question_id ∉ eq'
      · rw [if_pos hx2] at hrow
        exact ih row hrow
      · rw [if_neg hx2] at hrow
        rcases List.mem_cons.mp hrow with h | h
        · subst h
          exact ⟨not_not.mp hx, not_not.mp hx2⟩
        · exact ih row h

/-- Recognisers for the existence-lookup events. -/
def Ev.isLessonsRead : Ev → Bool
  | .readLessons _ => true
  | _ => false

def Ev.isUsersByIdRead : Ev → Bool
  | .readUsersById _ => true
  | _ => false

def Ev.isQuestionsRead : Ev → Bool
  | .readQuestions _ => true
  | _ => false

/-- The chunk loop only issues write events. -/
theorem runChunks_trace_writes (fail : Nat → Option String)
    (evs : List α → List Ev)
    (hevs : ∀ (c : List α) (e : Ev), e ∈ evs c → ∃ lab n, e = Ev.write lab n) :
    ∀ (k : Nat) (cs : List (List α)) (e : Ev),
      e ∈ (runChunks fail evs k cs).1 → ∃ lab n, e = Ev.write lab n := by
  intro k cs
  induction cs generalizing k with
  | nil => intro e he; simp [runChunks] at he
  | cons c cs ih =>
    intro e he
    rw [runChunks] at he
    cases hf : fail k with
    | some msg =>
      rw [hf] at he
      simp at he
    | none =>
      rw [hf] at he
      cases hr : runChunks fail evs (k + 1) cs with
      | mk es r =>
        rw [hr] at he
        cases r with
        | error msg =>
          simp only at he
          rcases List.mem_append.mp he with h | h
          · exact hevs c e h
          · exact ih (k + 1) e (by rw [hr]; exact h)
        | ok rest =>
          simp only at he
          rcases List.mem_append.mp he with h | h
          · exact hevs c e h
          · exact ih (k + 1) e (by rw [hr]; exact h)

/-- A field-valid link at any input position yields its `link_data` dict
among the validated links. -/
theorem validateLinks_of_get (now : String) :
    ∀ (l : List LinkIn) (i j : Nat) (li : LinkIn),
      l.get? j = some li → ¬ (li.user_id.isNone ∨ li.knowledge_id.isNone) →
      mkLearnedRec now li ∈ (validateLinks now i l).1 := by
  intro l
  induction l with
  | nil => intro i j li hj; simp at hj
  | cons x xs ih =>
    intro i j li hj hli
    cases j with
    | zero =>
      simp at hj
      subst hj
      rw [validateLinks, if_neg hli]
      exact List.mem_cons_self _ _
    | succ j =>
      simp only [List.get?_cons_succ] at hj
      by_cases hx : x.user_id.isNone ∨ x.knowledge_id.isNone
      · rw [validateLinks, if_pos hx]
        exact ih (i + 1) j li hj hli
      · rw [validateLinks, if_neg hx]
        exact List.mem_cons_of_mem _ (ih (i + 1) j li hj hli)

/-- A link whose user is missing contributes the `User ... not found`
reason. -/
theorem filterLinksFk_reject_user (eu ek : List String) :
    ∀ (l : List LearnedRec) (row : LearnedRec), row ∈ l → row.userId ∉ eu →
      ("User " ++ row.userId ++ " not found") ∈ (filterLinksFk eu ek l).2 := by
  intro l
  induction l with
  | nil => intro row hrow; simp at hrow
  | cons x xs ih =>
    intro row hrow hu
    rw [filterLinksFk]
    rcases List.mem_cons.mp hrow with h | h
    · subst h
      rw [if_pos hu]
      exact List.mem_cons_self _ _
    · by_cases hx : x.userId ∉ eu
      · rw [if_pos hx]
        exact List.mem_cons_of_mem _ (ih row h hu)
      · rw [if_neg hx]
        by_cases hx2 : x.knowledgeId ∉ ek
        · rw [if_pos hx2]
          exact List.mem_cons_of_mem _ (ih row h hu)
        · rw [if_neg hx2]
          exact ih row h hu

/-- A link whose user exists but whose knowledge is missing contributes
the `Knowledge ... not found` reason. -/
theorem filterLinksFk_reject_knowledge (eu ek : List String) :
    ∀ (l : List LearnedRec) (row : LearnedRec), row ∈ l →
      row.userId ∈ eu → row.knowledgeId ∉ ek →
      ("Knowledge " ++ row.knowledgeId ++ " not found") ∈ (filterLinksFk eu ek l).2 := by
  intro l
  induction l with
  | nil => intro row hrow; simp at hrow
  | cons x xs ih =>
    intro row hrow hu hk
    rw [filterLinksFk]
    rcases List.mem_cons.mp hrow with h | h
    · subst h
      rw [if_neg (by simpa using hu), if_pos hk]
      exact List.mem_cons_self _ _
    · by_cases hx : x.userId ∉ eu
      · rw [if_pos hx]
        exact List.mem_cons_of_mem _ (ih row h hu hk)
      · rw [if_neg hx]
        by_cases hx2 : x.knowledgeId ∉ ek
        · rw [if_pos hx2]
          exact List.mem_cons_of_mem _ (ih row h hu hk)
        · rw [if_neg hx2]
          exact ih row h hu hk

/-- Every link surviving the foreign-key filter references a user and a
knowledge node of the existence sets. -/
theorem filterLinksFk_kept (eu ek : List String) :
    ∀ (l : List LearnedRec) (row : LearnedRec),
      row ∈ (filterLinksFk eu ek l).1 →
      row.userId ∈ eu ∧ row.knowledgeId ∈ ek := by
  intro l
  induction l with
  | nil => intro row hrow; simp [filterLinksFk] at hrow
  | cons x xs ih =>
    intro row hrow
    rw [filterLinksFk] at hrow
    by_cases hx : x.userId ∉ eu
    · rw [if_pos hx] at hrow
      exact ih row hrow
    · rw [if_neg hx] at hrow
      by_cases hx2 : x.knowledgeId ∉ ek
      · rw [if_pos hx2] at hrow
        exact ih row hrow
      · rw [if_neg hx2] at hrow
        rcases List.mem_cons.mp hrow with h | h
        · subst h
          exact ⟨not_not.mp hx, not_not.mp hx2⟩
        · exact ih row h

/-- `import_questions_optimized` issues exactly one lesson-existence
lookup, over the deduplicated union of all referenced `lesson_id`s,
independently of the number of records. -/
theorem importQuestionsOptimized_single_lookup (store : Store)
    (questionsData : List QuestionIn) (batchSize : Nat) (genId : Nat → String)
    (now : String) (fail : Nat → Option String) (hn : batchSize ≠ 0)
    (hv : ¬ (questionsValidated genId now questionsData).1.isEmpty) :
    (importQuestionsOptimized store questionsData batchSize genId now fail).trace.filter
        Ev.isLessonsRead =
      [Ev.readLessons (((questionsValidated genId now questionsData).1.map (·.lesson_id)).dedup)] := by
  have hevs : ∀ (c : List QuestionRow) (e : Ev),
      e ∈ [Ev.write "Question" c.length, Ev.write "BELONGS_TO_LESSON" c.length] →
      ∃ lab n, e = Ev.write lab n := by
    intro c e he
    rcases List.mem_cons.mp he with h | h
    · exact ⟨_, _, h⟩
    · rcases List.mem_cons.mp h with h2 | h2
      · exact ⟨_, _, h2⟩
      · simp at h2
  unfold importQuestionsOptimized
  rw [if_neg hv, if_neg hn]
  cases hr : runChunks fail
      (fun c => [Ev.write "Question" c.length, Ev.write "BELONGS_TO_LESSON" c.length]) 0
      (chunkList batchSize (questionsFinal store genId now questionsData).1) with
  | mk es r =>
    have hwr : es.filter Ev.isLessonsRead = [] := by
      rw [List.filter_eq_nil]
      intro e he
      obtain ⟨lab, n, rfl⟩ := runChunks_trace_writes fail _ hevs 0 _ e (by rw [hr]; exact he)
      simp [Ev.isLessonsRead]
    cases r with
    | error e =>
      simp [List.filter_append, hwr, Ev.isLessonsRead]
    | ok created =>
      simp [List.filter_append, hwr, Ev.isLessonsRead]

/-- `import_answers_optimized` issues exactly one user-existence lookup
and exactly one question-existence lookup, each over the deduplicated
union of the referenced identifiers. -/
theorem importAnswersOptimized_single_lookup (store : Store)
    (answersData : List AnswerIn) (batchSize : Nat) (genId : Nat → String)
    (now : String) (fail : Nat → Option String) (hn : batchSize ≠ 0)
    (hv : ¬ (answersValidated genId now answersData).1.isEmpty) :
    (importAnswersOptimized store answersData batchSize genId now fail).trace.filter
        Ev.isUsersByIdRead =
      [Ev.readUsersById (((answersValidated genId now answersData).1.map (·.user_id)).dedup)] ∧
    (importAnswersOptimized store answersData batchSize genId now fail).trace.filter
        Ev.isQuestionsRead =
      [Ev.readQuestions (((answersValidated genId now answersData).1.map (·.question_id)).dedup)] := by
  have hevs : ∀ (c : List AnswerRow) (e : Ev),
      e ∈ [Ev.write "Answer" c.length, Ev.write "ANSWERED" c.length,
        Ev.write "ANSWERS_QUESTION" c.length] →
      ∃ lab n, e = Ev.write lab n := by
    intro c e he
    rcases List.mem_cons.mp he with h | h
    · exact ⟨_, _, h⟩
    · rcases List.mem_cons.mp h with h2 | h2
      · exact ⟨_, _, h2⟩
      · rcases List.mem_cons.mp h2 with h3 | h3
        · exact ⟨_, _, h3⟩
        · simp at h3
  unfold importAnswersOptimized
  rw [if_neg hv, if_neg hn]
  cases hr : runChunks fail
      (fun c => [Ev.write "Answer" c.length, Ev.write "ANSWERED" c.length,
        Ev.write "ANSWERS_QUESTION" c.length]) 0
      (chunkList batchSize (answersFinal store genId now answersData).1) with
  | mk es r =>
    have hwr1 : es.filter Ev.isUsersByIdRead = [] := by
      rw [List.filter_eq_nil]
      intro e he
      obtain ⟨lab, n, rfl⟩ := runChunks_trace_writes fail _ hevs 0 _ e (by rw [hr]; exact he)
      simp [Ev.isUsersByIdRead]
    have hwr2 : es.filter Ev.isQuestionsRead = [] := by
      rw [List.filter_eq_nil]
      intro e he
      obtain ⟨lab, n, rfl⟩ := runChunks_trace_writes fail _ hevs 0 _ e (by rw [hr]; exact he)
      simp [Ev.isQuestionsRead]
    cases r with
    | error e =>
      constructor
      · simp [List.filter_append, hwr1, Ev.isUsersByIdRead]
      · simp [List.filter_append, hwr2, Ev.isQuestionsRead]
    | ok created =>
      constructor
      · simp [List.filter_append, hwr1, Ev.isUsersByIdRead]
      · simp [List.filter_append, hwr2, Ev.isQuestionsRead]

def Ev.isKnowledgeRead : Ev → Bool
  | .readKnowledge _ => true
  | _ => false

/-- `bulk_link_users_knowledge` issues exactly one user-existence lookup
and exactly one knowledge-existence lookup, each over the deduplicated
union of the referenced identifiers. -/
theorem bulkLinkUsersKnowledge_single_lookup (store : Store)
    (linksData : List LinkIn) (now : String) (fail : Nat → Option String)
    (hv : ¬ (linksValidated now linksData).1.isEmpty) :
    (bulkLinkUsersKnowledge store linksData now fail).trace.filter
        Ev.isUsersByIdRead =
      [Ev.readUsersById (((linksValidated now linksData).1.map (·.userId)).dedup)] ∧
    (bulkLinkUsersKnowledge store linksData now fail).trace.filter
        Ev.isKnowledgeRead =
      [Ev.readKnowledge (((linksValidated now linksData).1.map (·.knowledgeId)).dedup)] := by
  unfold bulkLinkUsersKnowledge
  rw [if_neg hv]
  by_cases hf1 : (linksFinal store now linksData).1.isEmpty
  · rw [if_pos hf1]
    constructor
    · simp [List.filter_append, Ev.isUsersByIdRead]
    · simp [List.filter_append, Ev.isKnowledgeRead]
  · rw [if_neg hf1]
    by_cases hg : (linksNew store now linksData).1.isEmpty
    · simp only [if_pos hg]
      constructor
      · simp [List.filter_append, Ev.isUsersByIdRead]
      · simp [List.filter_append, Ev.isKnowledgeRead]
    · simp only [if_neg hg]
      cases hfl : fail 0 with
      | some e =>
        constructor
        · simp [List.filter_append, Ev.isUsersByIdRead]
        · simp [List.filter_append, Ev.isKnowledgeRead]
      | none =>
        constructor
        · simp [List.filter_append, Ev.isUsersByIdRead]
        · simp [List.filter_append, Ev.isKnowledgeRead]

/-- **C4**: foreign-key gating.  For questions (`lesson_id`), answers
(`user_id`, `question_id`) and LEARNED links (`user_id`, `knowledge_id`):
a field-valid record whose foreign-key value is absent from the store is
rejected with a reason naming the missing key and its value — for each of
the five foreign-key fields, lifted to the call's returned reason list —
at any input position and for any positive batch size; every record surviving the
foreign-key filter (hence every record inserted) references only existing
entities; and each foreign-key existence check is issued as exactly one
batched lookup over the deduplicated union of the referenced identifiers,
never one lookup per record. -/
theorem claim_C4_foreign_key_gating :
    (∀ (store : Store) (questionsData : List QuestionIn) (batchSize : Nat)
        (genId : Nat → String) (now : String) (fail : Nat → Option String)
        (i : Nat) (q : QuestionIn),
      batchSize ≠ 0 → (∀ k, fail k = none) →
      questionsData.get? i = some q → q.missingFields = [] →
      q.lesson_id.getD "" ∉ store.lessons →
      ("Lesson " ++ q.lesson_id.getD "" ++ " not found for question " ++ q.title.getD "") ∈
        (importQuestionsOptimized store questionsData batchSize genId now fail).result.reasons) ∧
    (∀ (store : Store) (genId : Nat → String) (now : String)
        (questionsData : List QuestionIn) (r : QuestionRow),
      r ∈ (questionsFinal store genId now questionsData).1 →
      r.lesson_id ∈ store.lessons) ∧
    (∀ (store : Store) (questionsData : List QuestionIn) (batchSize : Nat)
        (genId : Nat → String) (now : String) (fail : Nat → Option String),
      batchSize ≠ 0 → ¬ (questionsValidated genId now questionsData).1.isEmpty →
      (importQuestionsOptimized store questionsData batchSize genId now fail).trace.filter
          Ev.isLessonsRead =
        [Ev.readLessons (((questionsValidated genId now questionsData).1.map (·.lesson_id)).dedup)]) ∧
    (∀ (store : Store) (answersData : List AnswerIn) (batchSize : Nat)
        (genId : Nat → String) (now : String) (fail : Nat → Option String)
        (i : Nat) (a : AnswerIn),
      batchSize ≠ 0 → (∀ k, fail k = none) →
      answersData.get? i = some a → a.missingFields = [] →
      a.user_id.getD "" ∉ store.users.map (·.id) →
      ("User " ++ a.user_id.getD "" ++ " not found") ∈
        (importAnswersOptimized store answersData batchSize genId now fail).result.reasons) ∧
    (∀ (store : Store) (answersData : List AnswerIn) (batchSize : Nat)
        (genId : Nat → String) (now : String) (fail : Nat → Option String)
        (i : Nat) (a : AnswerIn),
      batchSize ≠ 0 → (∀ k, fail k = none) →
      answersData.get? i = some a → a.missingFields = [] →
      a.user_id.getD "" ∈ store.users.map (·.id) →
      a.question_id.getD "" ∉ store.questions.map (·.id) →
      ("Question " ++ a.question_id.getD "" ++ " not found") ∈
        (importAnswersOptimized store answersData batchSize genId now fail).result.reasons) ∧
    (∀ (store : Store) (genId : Nat → String) (now : String)
        (answersData : List AnswerIn) (r : AnswerRow),
      r ∈ (answersFinal store genId now answersData).1 →
      r.user_id ∈ store.users.map (·.id) ∧ r.question_id ∈ store.questions.map (·.id)) ∧
    (∀ (store : Store) (answersData : List AnswerIn) (batchSize : Nat)
        (genId : Nat → String) (now : String) (fail : Nat → Option String),
      batchSize ≠ 0 → ¬ (answersValidated genId now answersData).1.isEmpty →
      (importAnswersOptimized store answersData batchSize genId now fail).trace.filter
          Ev.isUsersByIdRead =
        [Ev.readUsersById (((answersValidated genId now answersData).1.map (·.user_id)).dedup)] ∧
      (importAnswersOptimized store answersData batchSize genId now fail).trace.filter
          Ev.isQuestionsRead =
        [Ev.readQuestions (((answersValidated genId now answersData).1.map (·.question_id)).dedup)]) ∧
    (∀ (store : Store) (linksData : List LinkIn) (now : String)
        (fail : Nat → Option String) (i : Nat) (li : LinkIn),
      (∀ k, fail k = none) →
      linksData.get? i = some li → ¬ (li.user_id.isNone ∨ li.knowledge_id.isNone) →
      li.user_id.getD "" ∉ store.users.map (·.id) →
      ("User " ++ li.user_id.getD "" ++ " not found") ∈
        (bulkLinkUsersKnowledge store linksData now fail).result.reasons) ∧
    (∀ (store : Store) (linksData : List LinkIn) (now : String)
        (fail : Nat → Option String) (i : Nat) (li : LinkIn),
      (∀ k, fail k = none) →
      linksData.get? i = some li → ¬ (li.user_id.isNone ∨ li.knowledge_id.isNone) →
      li.user_id.getD "" ∈ store.users.map (·.id) →
      li.knowledge_id.getD "" ∉ store.knowledge →
      ("Knowledge " ++ li.knowledge_id.getD "" ++ " not found") ∈
        (bulkLinkUsersKnowledge store linksData now fail).result.reasons) ∧
    (∀ (store : Store) (now : String) (linksData : List LinkIn) (r : LearnedRec),
      r ∈ (linksFinal store now linksData).1 →
      r.userId ∈ store.users.map (·.id) ∧ r.knowledgeId ∈ store.knowledge) ∧
    (∀ (store : Store) (linksData : List LinkIn) (now : String)
        (fail : Nat → Option String),
      ¬ (linksValidated now linksData).1.isEmpty →
      (bulkLinkUsersKnowledge store linksData now fail).trace.filter
          Ev.isUsersByIdRead =
        [Ev.readUsersById (((linksValidated now linksData).1.map (·.userId)).dedup)] ∧
      (bulkLinkUsersKnowledge store linksData now fail).trace.filter
          Ev.isKnowledgeRead =
        [Ev.readKnowledge (((linksValidated now linksData).1.map (·.knowledgeId)).dedup)]) := by
  refine ⟨?_, ?_, ?_, ?_, ?_, ?_, ?_, ?_, ?_, ?_, ?_⟩
  · -- questions: rejection reason
    intro store questionsData batchSize genId now fail i q hn hf hq hm hlid
    obtain ⟨row, hrow, hl, ht⟩ := validateQuestions_of_get genId now questionsData 0 0 i q hq
      (by simp [hm])
    have hrow' : row ∈ (questionsValidated genId now questionsData).1 := hrow
    have hv : ¬ (questionsValidated genId now questionsData).1.isEmpty := by
      intro h
      rw [List.isEmpty_iff] at h
      rw [h] at hrow'
      simp at hrow'
    have hnotE : row.lesson_id ∉ store.lessons.filter
        (· ∈ ((questionsValidated genId now questionsData).1.map (·.lesson_id)).dedup) := by
      intro hmem
      exact hlid (hl ▸ (List.mem_filter.mp hmem).1)
    have hreject := filterQuestionsLesson_reject _ _ row hrow' hnotE
    rw [hl, ht] at hreject
    obtain ⟨_, hres⟩ := importQuestionsOptimized_noFail store questionsData batchSize
      genId now fail hn hv hf
    rw [hres]
    exact List.mem_append_right _ hreject
  · -- questions: surviving rows reference existing lessons
    intro store genId now questionsData r hr
    have := filterQuestionsLesson_kept _ _ r hr
    exact (List.mem_filter.mp this).1
  · -- questions: single batched lookup
    intro store questionsData batchSize genId now fail hn hv
    exact importQuestionsOptimized_single_lookup store questionsData batchSize genId now fail hn hv
  · -- answers: missing user rejection
    intro store answersData batchSize genId now fail i a hn hf ha hm huid
    obtain ⟨row, hrow, hu, hqid⟩ := validateAnswers_of_get genId now answersData 0 0 i a ha
      (by simp [hm])
    have hrow' : row ∈ (answersValidated genId now answersData).1 := hrow
    have hv : ¬ (answersValidated genId now answersData).1.isEmpty := by
      intro h
      rw [List.isEmpty_iff] at h
      rw [h] at hrow'
      simp at hrow'
    have hnotE : row.user_id ∉ (store.users.map (·.id)).filter
        (· ∈ ((answersValidated genId now answersData).1.map (·.user_id)).dedup) := by
      intro hmem
      exact huid (hu ▸ (List.mem_filter.mp hmem).1)
    have hreject := filterAnswersFk_reject_user _
      ((store.questions.map (·.id)).filter
        (· ∈ ((answersValidated genId now answersData).1.map (·.question_id)).dedup))
      _ row hrow' hnotE
    rw [hu] at hreject
    obtain ⟨_, hres⟩ := importAnswersOptimized_noFail store answersData batchSize
      genId now fail hn hv hf
    rw [hres]
    exact List.mem_append_right _ hreject
  · -- answers: missing question rejection
    intro store answersData batchSize genId now fail i a hn hf ha hm huid hqid
    obtain ⟨row, hrow, hu, hq⟩ := validateAnswers_of_get genId now answersData 0 0 i a ha
      (by simp [hm])
    have hrow' : row ∈ (answersValidated genId now answersData).1 := hrow
    have hv : ¬ (answersValidated genId now answersData).1.isEmpty := by
      intro h
      rw [List.isEmpty_iff] at h
      rw [h] at hrow'
      simp at hrow'
    have hinE : row.user_id ∈ (store.users.map (·.id)).filter
        (· ∈ ((answersValidated genId now answersData).1.map (·.user_id)).dedup) := by
      rw [List.mem_filter]
      refine ⟨hu ▸ huid, ?_⟩
      simp only [List.mem_dedup, decide_eq_true_eq]
      exact List.mem_map.mpr ⟨row, hrow', rfl⟩
    have hnotE : row.question_id ∉ (store.questions.map (·.id)).filter
        (· ∈ ((answersValidated genId now answersData).1.map (·.question_id)).dedup) := by
      intro hmem
      exact hqid (hq ▸ (List.mem_filter.mp hmem).1)
    have hreject := filterAnswersFk_reject_question _ _ _ row hrow' hinE hnotE
    rw [hq] at hreject
    obtain ⟨_, hres⟩ := importAnswersOptimized_noFail store answersData batchSize
      genId now fail hn hv hf
    rw [hres]
    exact List.mem_append_right _ hreject
  · -- answers: surviving rows reference existing users and questions
    intro store genId now answersData r hr
    have := filterAnswersFk_kept _ _ _ r hr
    exact ⟨(List.mem_filter.mp this.1).1, (List.mem_filter.mp this.2).1⟩
  · -- answers: single batched lookups
    intro store answersData batchSize genId now fail hn hv
    exact importAnswersOptimized_single_lookup store answersData batchSize genId now fail hn hv
  · -- links: missing user rejection
    intro store linksData now fail i li hf hli hfv huid
    have hrow' : mkLearnedRec now li ∈ (linksValidated now linksData).1 :=
      validateLinks_of_get now linksData 0 i li hli hfv
    have hv : ¬ (linksValidated now linksData).1.isEmpty := by
      intro h
      rw [List.isEmpty_iff] at h
      rw [h] at hrow'
      simp at hrow'
    have hnotE : (mkLearnedRec now li).userId ∉ (store.users.map (·.id)).filter
        (· ∈ ((linksValidated now linksData).1.map (·.userId)).dedup) := by
      intro hmem
      exact huid ((List.mem_filter.mp hmem).1)
    have hreject := filterLinksFk_reject_user _
      (store.knowledge.filter
        (· ∈ ((linksValidated now linksData).1.map (·.knowledgeId)).dedup))
      _ (mkLearnedRec now li) hrow' hnotE
    unfold bulkLinkUsersKnowledge
    rw [if_neg hv]
    by_cases hf1 : (linksFinal store now linksData).1.isEmpty
    · rw [if_pos hf1]
      simp only [ImportResult.reasons]
      exact List.mem_append_right _ hreject
    · rw [if_neg hf1]
      by_cases hg : (linksNew store now linksData).1.isEmpty
      · simp only [if_pos hg, ImportResult.reasons]
        exact List.mem_append_left _ (List.mem_append_right _ hreject)
      · simp only [if_neg hg]
        rw [hf 0]
        simp only [ImportResult.reasons]
        exact List.mem_append_left _ (List.mem_append_right _ hreject)
  · -- links: missing knowledge rejection
    intro store linksData now fail i li hf hli hfv huid hkid
    have hrow' : mkLearnedRec now li ∈ (linksValidated now linksData).1 :=
      validateLinks_of_get now linksData 0 i li hli hfv
    have hv : ¬ (linksValidated now linksData).1.isEmpty := by
      intro h
      rw [List.isEmpty_iff] at h
      rw [h] at hrow'
      simp at hrow'
    have hinE : (mkLearnedRec now li).userId ∈ (store.users.map (·.id)).filter
        (· ∈ ((linksValidated now linksData).1.map (·.userId)).dedup) := by
      rw [List.mem_filter]
      refine ⟨huid, ?_⟩
      simp only [List.mem_dedup, decide_eq_true_eq]
      exact List.mem_map.mpr ⟨_, hrow', rfl⟩
    have hnotE : (mkLearnedRec now li).knowledgeId ∉ store.knowledge.filter
        (· ∈ ((linksValidated now linksData).1.map (·.knowledgeId)).dedup) := by
      intro hmem
      exact hkid ((List.mem_filter.mp hmem).1)
    have hreject := filterLinksFk_reject_knowledge _ _ _
      (mkLearnedRec now li) hrow' hinE hnotE
    unfold bulkLinkUsersKnowledge
    rw [if_neg hv]
    by_cases hf1 : (linksFinal store now linksData).1.isEmpty
    · rw [if_pos hf1]
      simp only [ImportResult.reasons]
      exact List.mem_append_right _ hreject
    · rw [if_neg hf1]
      by_cases hg : (linksNew store now linksData).1.isEmpty
      · simp only [if_pos hg, ImportResult.reasons]
        exact List.mem_append_left _ (List.mem_append_right _ hreject)
      · simp only [if_neg hg]
        rw [hf 0]
        simp only [ImportResult.reasons]
        exact List.mem_append_left _ (List.mem_append_right _ hreject)
  · -- links: surviving links reference existing users and knowledge
    intro store now linksData r hr
    have := filterLinksFk_kept _ _ _ r hr
    exact ⟨(List.mem_filter.mp this.1).1, (List.mem_filter.mp this.2).1⟩
  · -- links: single batched lookups
    intro store linksData now fail hv
    exact bulkLinkUsersKnowledge_single_lookup store linksData now fail hv

/-- Witness for C4: a question referencing the absent lesson `LX` is
rejected with the reason naming `LX`. -/
theorem claim_C4_foreign_key_gating_witness :
    ("Lesson " ++ (some "LX").getD "" ++ " not found for question " ++ (some "T1").getD "") ∈
      (importQuestionsOptimized ⟨[], ["L1"], [], [], [], [], [], [], []⟩
        [⟨some "LX", some "T1", some "C", some "A", some "easy", some 1, none, none⟩]
        500 (fun n => "g" ++ toString n) "T" (fun _ => none)).result.reasons :=
  claim_C4_foreign_key_gating.1 ⟨[], ["L1"], [], [], [], [], [], [], []⟩
    [⟨some "LX", some "T1", some "C", some "A", some "easy", some 1, none, none⟩]
    500 (fun n => "g" ++ toString n) "T" (fun _ => none) 0
    ⟨some "LX", some "T1", some "C", some "A", some "easy", some 1, none, none⟩
    (by decide) (fun _ => rfl) (by decide) (by decide) (by decide)

/-- A record "claims" the stripped identifier `t` when it passes the
field and email checks and supplies a (truthy) id that strips to `t`. -/
def UserIn.claimsId (u : UserIn) (t : String) : Bool :=
  u.name.isSome && u.email.isSome && pyContains (u.email.getD "") '@' &&
  (match u.suppliedId with
   | some s => pyStrip s == t
   | none => false)

/-- Processing one more record only grows the reason list: the reasons of
the recursive call (under the updated `used_ids` set) all appear in the
reasons of the full call. -/
theorem validateUsersModule_tail (genId : Nat → String) (now : String)
    (x : UserIn) (xs : List UserIn) (i c : Nat) (used : List String) :
    ∃ used', used ⊆ used' ∧ ∃ c',
      ∀ e, e ∈ (validateUsersModule genId now (i + 1) used' c' xs).2 →
        e ∈ (validateUsersModule genId now i used c (x :: xs)).2 := by
  by_cases h1 : x.name.isNone ∨ x.email.isNone
  · refine ⟨used, List.Subset.refl _, c, ?_⟩
    intro e he
    rw [validateUsersModule, if_pos h1]
    exact List.mem_cons_of_mem _ he
  · by_cases h2 : ¬ pyContains (x.email.getD "") '@'
    · refine ⟨used, List.Subset.refl _, c, ?_⟩
      intro e he
      rw [validateUsersModule, if_neg h1, if_pos h2]
      exact List.mem_cons_of_mem _ he
    · cases hs : x.suppliedId with
      | some s =>
        by_cases h3 : pyStrip s = ""
        · refine ⟨used, List.Subset.refl _, c, ?_⟩
          intro e he
          rw [validateUsersModule, if_neg h1, if_neg h2]
          simp only [hs, if_pos h3]
          exact List.mem_cons_of_mem _ he
        · by_cases h4 : pyStrip s ∈ used
          · refine ⟨used, List.Subset.refl _, c, ?_⟩
            intro e he
            rw [validateUsersModule, if_neg h1, if_neg h2]
            simp only [hs, if_neg h3, if_pos h4]
            exact List.mem_cons_of_mem _ he
          · refine ⟨pyStrip s :: used, List.subset_cons_self _ _, c, ?_⟩
            intro e he
            rw [validateUsersModule, if_neg h1, if_neg h2]
            simp only [hs, if_neg h3, if_neg h4]
            exact he
      | none =>
        refine ⟨used, List.Subset.refl _, c + 1, ?_⟩
        intro e he
        rw [validateUsersModule, if_neg h1, if_neg h2]
        simp only [hs]
        exact he

/-- Once `t` is in the `used_ids` set, every further record claiming `t`
is rejected with the in-batch duplicate-ID reason. -/
theorem validateUsersModule_dup_of_used (genId : Nat → String) (now : String)
    (t : String) (ht0 : t ≠ "") :
    ∀ (l : List UserIn) (i : Nat) (used : List String) (c : Nat), t ∈ used →
      ∀ (j : Nat) (u : UserIn), l.get? j = some u → u.claimsId t = true →
      ("User " ++ toString (i + j) ++ ": Duplicate ID \"" ++ t ++ "\" in batch") ∈
        (validateUsersModule genId now i used c l).2 := by
  intro l
  induction l with
  | nil => intro i used c ht j u hj; simp at hj
  | cons x xs ih =>
    intro i used c ht j u hj hcl
    cases j with
    | zero =>
      simp at hj
      subst hj
      unfold UserIn.claimsId at hcl
      cases hs : x.suppliedId with
      | none => rw [hs] at hcl; simp at hcl
      | some s =>
        rw [hs] at hcl
        simp only [Bool.and_eq_true, beq_iff_eq] at hcl
        obtain ⟨⟨⟨hn, he⟩, hc⟩, hst⟩ := hcl
        have h1 : ¬ (x.name.isNone = true ∨ x.email.isNone = true) := by
          rintro (h | h)
          · rw [Option.isNone_iff_eq_none] at h
            rw [h] at hn
            simp at hn
          · rw [Option.isNone_iff_eq_none] at h
            rw [h] at he
            simp at he
        have h3 : ¬ (pyStrip s = "") := by
          rw [hst]
          exact ht0
        have h4 : pyStrip s ∈ used := by
          rw [hst]
          exact ht
        rw [validateUsersModule, if_neg h1, if_neg (not_not_intro hc)]
        simp only [hs, hst]
        rw [if_neg ht0, if_pos ht]
        exact List.mem_cons_self _ _
    | succ j =>
      simp only [List.get?_cons_succ] at hj
      obtain ⟨used', hsub, c', hmono⟩ := validateUsersModule_tail genId now x xs i c used
      have hidx : i + 1 + j = i + (j + 1) := by omega
      have := ih (i + 1) used' c' (hsub ht) j u hj hcl
      rw [hidx] at this
      exact hmono _ this

/-- First-wins for caller-supplied ids in `bulk_create_users`: if the
record at position `j` is the first to claim the (nonempty, stripped)
identifier `t`, its user dict with id `t` is among the validated records,
and every later record claiming `t` is rejected with the in-batch
duplicate-ID reason. -/
theorem validateUsersModule_first_wins (genId : Nat → String) (now : String)
    (t : String) (ht0 : t ≠ "") :
    ∀ (l : List UserIn) (i : Nat) (used : List String) (c : Nat), t ∉ used →
      ∀ (j : Nat) (u : UserIn), l.get? j = some u → u.claimsId t = true →
      (∀ (j' : Nat) (u' : UserIn), j' < j → l.get? j' = some u' → u'.claimsId t = false) →
      mkUserRec now t u ∈ (validateUsersModule genId now i used c l).1 ∧
      (∀ (j2 : Nat) (u2 : UserIn), j < j2 → l.get? j2 = some u2 → u2.claimsId t = true →
        ("User " ++ toString (i + j2) ++ ": Duplicate ID \"" ++ t ++ "\" in batch") ∈
          (validateUsersModule genId now i used c l).2) := by
  intro l
  induction l with
  | nil => intro i used c ht j u hj; simp at hj
  | cons x xs ih =>
    intro i used c ht j u hj hcl hfirst
    cases j with
    | zero =>
      simp at hj
      subst hj
      have hclx := hcl
      unfold UserIn.claimsId at hclx
      cases hs : x.suppliedId with
      | none => rw [hs] at hclx; simp at hclx
      | some s =>
        rw [hs] at hclx
        simp only [Bool.and_eq_true, beq_iff_eq] at hclx
        obtain ⟨⟨⟨hn, he⟩, hc⟩, hst⟩ := hclx
        have h1 : ¬ (x.name.isNone = true ∨ x.email.isNone = true) := by
          rintro (h | h)
          · rw [Option.isNone_iff_eq_none] at h
            rw [h] at hn
            simp at hn
          · rw [Option.isNone_iff_eq_none] at h
            rw [h] at he
            simp at he
        constructor
        · rw [validateUsersModule, if_neg h1, if_neg (not_not_intro hc)]
          simp only [hs, hst]
          rw [if_neg ht0, if_neg ht]
          exact List.mem_cons_self _ _
        · intro j2 u2 hj2 hget hcl2
          rw [validateUsersModule, if_neg h1, if_neg (not_not_intro hc)]
          simp only [hs, hst]
          rw [if_neg ht0, if_neg ht]
          obtain ⟨j2', rfl⟩ : ∃ j2', j2 = j2' + 1 := ⟨j2 - 1, by omega⟩
          simp only [List.get?_cons_succ] at hget
          have hidx : i + 1 + j2' = i + (j2' + 1) := by omega
          have := validateUsersModule_dup_of_used genId now t ht0 xs (i + 1)
            (t :: used) c (List.mem_cons_self _ _) j2' u2 hget hcl2
          rw [hidx] at this
          exact this
    | succ j =>
      simp only [List.get?_cons_succ] at hj
      have hxf : x.claimsId t = false := hfirst 0 x (Nat.succ_pos j) rfl
      have hfirst' : ∀ (j' : Nat) (u' : UserIn), j' < j → xs.get? j' = some u' →
          u'.claimsId t = false := by
        intro j' u' hj' hget
        exact hfirst (j' + 1) u' (by omega) (by simpa using hget)
      have hidx : ∀ j2' : Nat, i + 1 + j2' = i + (j2' + 1) := by intro j2'; omega
      by_cases h1 : x.name.isNone = true ∨ x.email.isNone = true
      · obtain ⟨hmem, hdup⟩ := ih (i + 1) used c ht j u hj hcl hfirst'
        rw [validateUsersModule, if_pos h1]
        refine ⟨hmem, ?_⟩
        intro j2 u2 hj2 hget hcl2
        obtain ⟨j2', rfl⟩ : ∃ j2', j2 = j2' + 1 := ⟨j2 - 1, by omega⟩
        simp only [List.get?_cons_succ] at hget
        have := hdup j2' u2 (by omega) hget hcl2
        rw [hidx j2'] at this
        exact List.mem_cons_of_mem _ this
      · by_cases h2 : ¬ pyContains (x.email.getD "") '@'
        · obtain ⟨hmem, hdup⟩ := ih (i + 1) used c ht j u hj hcl hfirst'
          rw [validateUsersModule, if_neg h1, if_pos h2]
          refine ⟨hmem, ?_⟩
          intro j2 u2 hj2 hget hcl2
          obtain ⟨j2', rfl⟩ : ∃ j2', j2 = j2' + 1 := ⟨j2 - 1, by omega⟩
          simp only [List.get?_cons_succ] at hget
          have := hdup j2' u2 (by omega) hget hcl2
          rw [hidx j2'] at this
          exact List.mem_cons_of_mem _ this
        · cases hs : x.suppliedId with
          | some s =>
            by_cases h3 : pyStrip s = ""
            · obtain ⟨hmem, hdup⟩ := ih (i + 1) used c ht j u hj hcl hfirst'
              rw [validateUsersModule, if_neg h1, if_neg h2]
              simp only [hs, if_pos h3]
              refine ⟨hmem, ?_⟩
              intro j2 u2 hj2 hget hcl2
              obtain ⟨j2', rfl⟩ : ∃ j2', j2 = j2' + 1 := ⟨j2 - 1, by omega⟩
              simp only [List.get?_cons_succ] at hget
              have := hdup j2' u2 (by omega) hget hcl2
              rw [hidx j2'] at this
              exact List.mem_cons_of_mem _ this
            · by_cases h4 : pyStrip s ∈ used
              · obtain ⟨hmem, hdup⟩ := ih (i + 1) used c ht j u hj hcl hfirst'
                rw [validateUsersModule, if_neg h1, if_neg h2]
                simp only [hs, if_neg h3, if_pos h4]
                refine ⟨hmem, ?_⟩
                intro j2 u2 hj2 hget hcl2
                obtain ⟨j2', rfl⟩ : ∃ j2', j2 = j2' + 1 := ⟨j2 - 1, by omega⟩
                simp only [List.get?_cons_succ] at hget
                have := hdup j2' u2 (by omega) hget hcl2
                rw [hidx j2'] at this
                exact List.mem_cons_of_mem _ this
              · have hts : pyStrip s ≠ t := by
                  intro heq
                  have hcx : x.claimsId t = true := by
                    unfold UserIn.claimsId
                    rw [hs]
                    simp only [Bool.and_eq_true, beq_iff_eq]
                    refine ⟨⟨⟨?_, ?_⟩, not_not.mp h2⟩, heq⟩
                    · cases hx : x.name with
                      | none => exact absurd (Or.inl (by rw [hx]; rfl)) h1
                      | some v => rfl
                    · cases hx : x.email with
                      | none => exact absurd (Or.inr (by rw [hx]; rfl)) h1
                      | some v => rfl
                  rw [hcx] at hxf
                  simp at hxf
                have ht' : t ∉ pyStrip s :: used := by
                  intro hmem
                  rcases List.mem_cons.mp hmem with h | h
                  · exact hts h.symm
                  · exact ht h
                obtain ⟨hmem, hdup⟩ := ih (i + 1) (pyStrip s :: used) c ht' j u hj hcl hfirst'
                rw [validateUsersModule, if_neg h1, if_neg h2]
                simp only [hs, if_neg h3, if_neg h4]
                refine ⟨List.mem_cons_of_mem _ hmem, ?_⟩
                intro j2 u2 hj2 hget hcl2
                obtain ⟨j2', rfl⟩ : ∃ j2', j2 = j2' + 1 := ⟨j2 - 1, by omega⟩
                simp only [List.get?_cons_succ] at hget
                have := hdup j2' u2 (by omega) hget hcl2
                rw [hidx j2'] at this
                exact this
          | none =>
            obtain ⟨hmem, hdup⟩ := ih (i + 1) used (c + 1) ht j u hj hcl hfirst'
            rw [validateUsersModule, if_neg h1, if_neg h2]
            simp only [hs]
            refine ⟨List.mem_cons_of_mem _ hmem, ?_⟩
            intro j2 u2 hj2 hget hcl2
            obtain ⟨j2', rfl⟩ : ∃ j2', j2 = j2' + 1 := ⟨j2 - 1, by omega⟩
            simp only [List.get?_cons_succ] at hget
            have := hdup j2' u2 (by omega) hget hcl2
            rw [hidx j2'] at this
            exact this

/-- A field- and email-valid record without a (truthy) caller-supplied id
receives a generated identifier in `bulk_create_users`. -/
theorem validateUsersModule_gen_id (genId : Nat → String) (now : String) :
    ∀ (l : List UserIn) (i : Nat) (used : List String) (c : Nat)
      (j : Nat) (u : UserIn), l.get? j = some u →
      ¬ (u.name.isNone = true ∨ u.email.isNone = true) →
      pyContains (u.email.getD "") '@' = true →
      u.suppliedId = none →
      ∃ k, mkUserRec now (genId k) u ∈ (validateUsersModule genId now i used c l).1 := by
  intro l
  induction l with
  | nil => intro i used c j u hj; simp at hj
  | cons x xs ih =>
    intro i used c j u hj hfields hcont hnoid
    cases j with
    | zero =>
      simp at hj
      subst hj
      rw [validateUsersModule, if_neg hfields, if_neg (not_not_intro hcont)]
      simp only [hnoid]
      exact ⟨c, List.mem_cons_self _ _⟩
    | succ j =>
      simp only [List.get?_cons_succ] at hj
      by_cases h1 : x.name.isNone = true ∨ x.email.isNone = true
      · rw [validateUsersModule, if_pos h1]
        exact ih (i + 1) used c j u hj hfields hcont hnoid
      · by_cases h2 : ¬ pyContains (x.email.getD "") '@'
        · rw [validateUsersModule, if_neg h1, if_pos h2]
          exact ih (i + 1) used c j u hj hfields hcont hnoid
        · cases hs : x.suppliedId with
          | some s =>
            by_cases h3 : pyStrip s = ""
            · rw [validateUsersModule, if_neg h1, if_neg h2]
              simp only [hs, if_pos h3]
              exact ih (i + 1) used c j u hj hfields hcont hnoid
            · by_cases h4 : pyStrip s ∈ used
              · rw [validateUsersModule, if_neg h1, if_neg h2]
                simp only [hs, if_neg h3, if_pos h4]
                exact ih (i + 1) used c j u hj hfields hcont hnoid
              · rw [validateUsersModule, if_neg h1, if_neg h2]
                simp only [hs, if_neg h3, if_neg h4]
                obtain ⟨k, hk⟩ := ih (i + 1) (pyStrip s :: used) c j u hj hfields hcont hnoid
                exact ⟨k, List.mem_cons_of_mem _ hk⟩
          | none =>
            rw [validateUsersModule, if_neg h1, if_neg h2]
            simp only [hs]
            obtain ⟨k, hk⟩ := ih (i + 1) used (c + 1) j u hj hfields hcont hnoid
            exact ⟨k, List.mem_cons_of_mem _ hk⟩

/-- In `import_users_optimized` every validated record's id is a freshly
generated one: the id list is exactly `genId` applied to the successive
counter values — caller-supplied ids are never used. -/
theorem validateUsersApi_ids (genId : Nat → String) (now : String) :
    ∀ (l : List UserIn) (i c : Nat),
      (validateUsersApi genId now i c l).1.map (·.id) =
        (List.range (validateUsersApi genId now i c l).1.length).map
          (fun k => genId (c + k)) := by
  intro l
  induction l with
  | nil => intro i c; rfl
  | cons x xs ih =>
    intro i c
    by_cases h1 : x.name.isNone = true ∨ x.email.isNone = true
    · rw [validateUsersApi, if_pos h1]
      exact ih (i + 1) c
    · by_cases h2 : ¬ pyContains (x.email.getD "") '@'
      · rw [validateUsersApi, if_neg h1, if_pos h2]
        exact ih (i + 1) c
      · rw [validateUsersApi, if_neg h1, if_neg h2]
        simp only [List.map_cons, List.length_cons, List.range_succ_eq_map,
          List.map_map]
        refine List.cons_eq_cons.mpr ⟨by simp [mkUserRec], ?_⟩
        rw [ih (i + 1) (c + 1)]
        apply List.map_congr_left
        intro k _
        simp only [Function.comp_apply]
        congr 1
        omega

/-- Counterexample to **C5** as stated: in the API bulk user import
(`import_users_optimized`), two records carrying the same caller-supplied
identifier `x` are *both* accepted — the result has two created users with
freshly generated ids `g0`, `g1` (neither keeps `x`) and no rejection
reason, contradicting "the first occurrence keeps that identifier and
later occurrences are rejected with a duplicate-identifier reason". -/
theorem claim_C5_counterexample :
    (importUsersOptimized ⟨[], [], [], [], [], [], [], [], []⟩
      [⟨some "A", some "a@x.com", none, some "x"⟩, ⟨some "B", some "b@x.com", none, some "x"⟩]
      1000 (fun n => "g" ++ toString n) "T" (fun _ => none)).result =
    ImportResult.done
      [⟨"g0", "A", "a@x.com", 7, "T", "T"⟩, ⟨"g1", "B", "b@x.com", 7, "T", "T"⟩]
      2 2 0 [] true := by decide

/-- **C5 (amended)**: in the module-level bulk user import
(`bulk_create_users`), among records passing the field and email checks,
the first occurrence of a nonempty caller-supplied identifier keeps it and
every later occurrence is rejected with the in-batch duplicate-ID reason,
and a record without a caller-supplied identifier receives a generated
identifier; the API bulk user import (`import_users_optimized`) instead
ignores caller-supplied identifiers entirely: every validated record's id
is freshly generated (`genId` of the successive counter values), so the
assigned ids are pairwise distinct whenever the generator is injective,
and duplicate caller-supplied identifiers are not rejected. -/
theorem claim_C5_amended :
    (∀ (store : Store) (usersData : List UserIn) (batchSize : Nat)
        (genId : Nat → String) (now : String) (fail : Nat → Option String)
        (t : String) (i j : Nat) (ui uj : UserIn),
      batchSize ≠ 0 → (∀ k, fail k = none) → t ≠ "" →
      usersData.get? i = some ui → ui.claimsId t = true →
      (∀ (i' : Nat) (u' : UserIn), i' < i → usersData.get? i' = some u' →
        u'.claimsId t = false) →
      i < j → usersData.get? j = some uj → uj.claimsId t = true →
      mkUserRec now t ui ∈ (moduleUsersValidated genId now usersData).1 ∧
      ("User " ++ toString j ++ ": Duplicate ID \"" ++ t ++ "\" in batch") ∈
        (bulkCreateUsers store usersData batchSize genId now fail).result.reasons) ∧
    (∀ (genId : Nat → String) (now : String) (usersData : List UserIn)
        (j : Nat) (u : UserIn),
      usersData.get? j = some u →
      ¬ (u.name.isNone = true ∨ u.email.isNone = true) →
      pyContains (u.email.getD "") '@' = true →
      u.suppliedId = none →
      ∃ k, mkUserRec now (genId k) u ∈ (moduleUsersValidated genId now usersData).1) ∧
    (∀ (genId : Nat → String) (now : String) (usersData : List UserIn),
      (apiUsersValidated genId now usersData).1.map (·.id) =
        (List.range (apiUsersValidated genId now usersData).1.length).map genId) ∧
    (∀ (genId : Nat → String) (now : String) (usersData : List UserIn),
      Function.Injective genId →
      ((apiUsersValidated genId now usersData).1.map (·.id)).Nodup) := by
  have hapi : ∀ (genId : Nat → String) (now : String) (usersData : List UserIn),
      (apiUsersValidated genId now usersData).1.map (·.id) =
        (List.range (apiUsersValidated genId now usersData).1.length).map genId := by
    intro genId now usersData
    have := validateUsersApi_ids genId now usersData 0 0
    simp only [apiUsersValidated]
    rw [this]
    apply List.map_congr_left
    intro k _
    simp
  refine ⟨?_, ?_, hapi, ?_⟩
  · intro store usersData batchSize genId now fail t i j ui uj hn hf ht0 hi hcli
      hfirst hij hj hclj
    obtain ⟨hmem, hdup⟩ := validateUsersModule_first_wins genId now t ht0
      usersData 0 [] 0 (List.not_mem_nil t) i ui hi hcli
      (fun i' u' hi' hget => hfirst i' u' hi' hget)
    have hdupj := hdup j uj hij hj hclj
    rw [Nat.zero_add] at hdupj
    refine ⟨hmem, ?_⟩
    have hv : ¬ (moduleUsersValidated genId now usersData).1.isEmpty := by
      intro h
      rw [List.isEmpty_iff] at h
      have : mkUserRec now t ui ∈ (moduleUsersValidated genId now usersData).1 := hmem
      rw [h] at this
      simp at this
    obtain ⟨_, hres⟩ := bulkCreateUsers_noFail store usersData batchSize genId now fail hn hv hf
    rw [hres]
    exact List.mem_append_left _ hdupj
  · intro genId now usersData j u hj hfields hcont hnoid
    exact validateUsersModule_gen_id genId now usersData 0 [] 0 j u hj hfields hcont hnoid
  · intro genId now usersData hinj
    rw [hapi]
    exact (List.nodup_range _).map hinj

/-- Witness for the amended C5: with two module-import records both
supplying id `x`, the first keeps `x` and the second is rejected with the
duplicate-ID reason. -/
theorem claim_C5_amended_witness :
    mkUserRec "T" "x" ⟨some "A", some "a@x.com", none, some "x"⟩ ∈
      (moduleUsersValidated (fun n => "g" ++ toString n) "T"
        [⟨some "A", some "a@x.com", none, some "x"⟩,
          ⟨some "B", some "b@x.com", none, some "x"⟩]).1 ∧
    ("User " ++ toString 1 ++ ": Duplicate ID \"" ++ "x" ++ "\" in batch") ∈
      (bulkCreateUsers ⟨[], [], [], [], [], [], [], [], []⟩
        [⟨some "A", some "a@x.com", none, some "x"⟩,
          ⟨some "B", some "b@x.com", none, some "x"⟩]
        1000 (fun n => "g" ++ toString n) "T" (fun _ => none)).result.reasons :=
  claim_C5_amended.1 ⟨[], [], [], [], [], [], [], [], []⟩
    [⟨some "A", some "a@x.com", none, some "x"⟩,
      ⟨some "B", some "b@x.com", none, some "x"⟩]
    1000 (fun n => "g" ++ toString n) "T" (fun _ => none) "x" 0 1
    ⟨some "A", some "a@x.com", none, some "x"⟩
    ⟨some "B", some "b@x.com", none, some "x"⟩
    (by decide) (fun _ => rfl) (by decide) (by decide) (by decide)
    (fun i' u' h _ => absurd h (Nat.not_lt_zero i'))
    (by decide) (by decide) (by decide)

/-! ## Reason-counting lemmas (claim C7) -/

theorem validateUsersModule_length (genId : Nat → String) (now : String) :
    ∀ (l : List UserIn) (i : Nat) (used : List String) (c : Nat),
      (validateUsersModule genId now i used c l).1.length +
        (validateUsersModule genId now i used c l).2.length = l.length := by
  intro l
  induction l with
  | nil => intro i used c; rfl
  | cons x xs ih =>
    intro i used c
    by_cases h1 : x.name.isNone = true ∨ x.email.isNone = true
    · rw [validateUsersModule, if_pos h1]
      simp only [List.length_cons]
      have := ih (i + 1) used c
      omega
    · by_cases h2 : ¬ pyContains (x.email.getD "") '@'
      · rw [validateUsersModule, if_neg h1, if_pos h2]
        simp only [List.length_cons]
        have := ih (i + 1) used c
        omega
      · cases hs : x.suppliedId with
        | some s =>
          by_cases h3 : pyStrip s = ""
          · rw [validateUsersModule, if_neg h1, if_neg h2]
            simp only [hs, if_pos h3, List.length_cons]
            have := ih (i + 1) used c
            omega
          · by_cases h4 : pyStrip s ∈ used
            · rw [validateUsersModule, if_neg h1, if_neg h2]
              simp only [hs, if_neg h3, if_pos h4, List.length_cons]
              have := ih (i + 1) used c
              omega
            · rw [validateUsersModule, if_neg h1, if_neg h2]
              simp only [hs, if_neg h3, if_neg h4, List.length_cons]
              have := ih (i + 1) (pyStrip s :: used) c
              omega
        | none =>
          rw [validateUsersModule, if_neg h1, if_neg h2]
          simp only [hs, List.length_cons]
          have := ih (i + 1) used (c + 1)
          omega

theorem validateUsersApi_length (genId : Nat → String) (now : String) :
    ∀ (l : List UserIn) (i c : Nat),
      (validateUsersApi genId now i c l).1.length +
        (validateUsersApi genId now i c l).2.length = l.length := by
  intro l
  induction l with
  | nil => intro i c; rfl
  | cons x xs ih =>
    intro i c
    by_cases h1 : x.name.isNone = true ∨ x.email.isNone = true
    · rw [validateUsersApi, if_pos h1]
      simp only [List.length_cons]
      have := ih (i + 1) c
      omega
    · by_cases h2 : ¬ pyContains (x.email.getD "") '@'
      · rw [validateUsersApi, if_neg h1, if_pos h2]
        simp only [List.length_cons]
        have := ih (i + 1) c
        omega
      · rw [validateUsersApi, if_neg h1, if_neg h2]
        simp only [List.length_cons]
        have := ih (i + 1) (c + 1)
        omega

theorem validateQuestions_length (genId : Nat → String) (now : String) :
    ∀ (l : List QuestionIn) (i c : Nat),
      (validateQuestions genId now i c l).1.length +
        (validateQuestions genId now i c l).2.length = l.length := by
  intro l
  induction l with
  | nil => intro i c; rfl
  | cons x xs ih =>
    intro i c
    by_cases h1 : x.missingFields.isEmpty
    · rw [validateQuestions, if_pos h1]
      simp only [List.length_cons]
      have := ih (i + 1) (c + 1)
      omega
    · rw [validateQuestions, if_neg h1]
      simp only [List.length_cons]
      have := ih (i + 1) c
      omega

theorem validateAnswers_length (genId : Nat → String) (now : String) :
    ∀ (l : List AnswerIn) (i c : Nat),
      (validateAnswers genId now i c l).1.length +
        (validateAnswers genId now i c l).2.length = l.length := by
  intro l
  induction l with
  | nil => intro i c; rfl
  | cons x xs ih =>
    intro i c
    by_cases h1 : x.missingFields.isEmpty
    · rw [validateAnswers, if_pos h1]
      simp only [List.length_cons]
      have := ih (i + 1) (c + 1)
      omega
    · rw [validateAnswers, if_neg h1]
      simp only [List.length_cons]
      have := ih (i + 1) c
      omega

theorem validateLinks_length (now : String) :
    ∀ (l : List LinkIn) (i : Nat),
      (validateLinks now i l).1.length + (validateLinks now i l).2.length = l.length := by
  intro l
  induction l with
  | nil => intro i; rfl
  | cons x xs ih =>
    intro i
    by_cases h1 : x.user_id.isNone = true ∨ x.knowledge_id.isNone = true
    · rw [validateLinks, if_pos h1]
      simp only [List.length_cons]
      have := ih (i + 1)
      omega
    · rw [validateLinks, if_neg h1]
      simp only [List.length_cons]
      have := ih (i + 1)
      omega

theorem filterEmailConflicts_length (E : List String) :
    ∀ (l : List UserRec),
      (filterEmailConflicts E l).1.length + (filterEmailConflicts E l).2.length = l.length := by
  intro l
  induction l with
  | nil => rfl
  | cons x xs ih =>
    by_cases h : x.email ∈ E
    · rw [filterEmailConflicts, if_pos h]
      simp only [List.length_cons]
      omega
    · rw [filterEmailConflicts, if_neg h]
      simp only [List.length_cons]
      omega

theorem filterQuestionsLesson_length (E : List String) :
    ∀ (l : List QuestionRow),
      (filterQuestionsLesson E l).1.length + (filterQuestionsLesson E l).2.length = l.length := by
  intro l
  induction l with
  | nil => rfl
  | cons x xs ih =>
    by_cases h : x.lesson_id ∈ E
    · rw [filterQuestionsLesson, if_pos h]
      simp only [List.length_cons]
      omega
    · rw [filterQuestionsLesson, if_neg h]
      simp only [List.length_cons]
      omega

theorem filterAnswersFk_length (eu eq' : List String) :
    ∀ (l : List AnswerRow),
      (filterAnswersFk eu eq' l).1.length + (filterAnswersFk eu eq' l).2.length = l.length := by
  intro l
  induction l with
  | nil => rfl
  | cons x xs ih =>
    by_cases h1 : x.user_id ∉ eu
    · rw [filterAnswersFk, if_pos h1]
      simp only [List.length_cons]
      omega
    · rw [filterAnswersFk, if_neg h1]
      by_cases h2 : x.question_id ∉ eq'
      · rw [if_pos h2]
        simp only [List.length_cons]
        omega
      · rw [if_neg h2]
        simp only [List.length_cons]
        omega

theorem filterLinksFk_length (eu ek : List String) :
    ∀ (l : List LearnedRec),
      (filterLinksFk eu ek l).1.length + (filterLinksFk eu ek l).2.length = l.length := by
  intro l
  induction l with
  | nil => rfl
  | cons x xs ih =>
    by_cases h1 : x.userId ∉ eu
    · rw [filterLinksFk, if_pos h1]
      simp only [List.length_cons]
      omega
    · rw [filterLinksFk, if_neg h1]
      by_cases h2 : x.knowledgeId ∉ ek
      · rw [if_pos h2]
        simp only [List.length_cons]
        omega
      · rw [if_neg h2]
        simp only [List.length_cons]
        omega

theorem filterLinksExisting_length (keys : List String) :
    ∀ (l : List LearnedRec),
      (filterLinksExisting keys l).1.length + (filterLinksExisting keys l).2.length = l.length := by
  intro l
  induction l with
  | nil => rfl
  | cons x xs ih =>
    by_cases h : x.userId ++ "|" ++ x.knowledgeId ∈ keys
    · rw [filterLinksExisting, if_pos h]
      simp only [List.length_cons]
      omega
    · rw [filterLinksExisting, if_neg h]
      simp only [List.length_cons]
      omega

/-- The number of validated records that conflict on *both* their email
and their id: the records that contribute two reasons each. -/
def doubleConflicts (existingEmails existingIds : List String)
    (l : List UserRec) : Nat :=
  (l.filter (fun u => decide (u.email ∈ existingEmails ∧ u.id ∈ existingIds))).length

theorem filterUserConflicts_cons (E I : List String) (x : UserRec)
    (xs : List UserRec) :
    filterUserConflicts E I (x :: xs) =
      if x.email ∈ E ∧ x.id ∈ I then
        ((filterUserConflicts E I xs).1,
          ("Email " ++ x.email ++ " already exists") ::
            ("ID " ++ x.id ++ " already exists") :: (filterUserConflicts E I xs).2)
      else if x.email ∈ E then
        ((filterUserConflicts E I xs).1,
          ("Email " ++ x.email ++ " already exists") :: (filterUserConflicts E I xs).2)
      else if x.id ∈ I then
        ((filterUserConflicts E I xs).1,
          ("ID " ++ x.id ++ " already exists") :: (filterUserConflicts E I xs).2)
      else (x :: (filterUserConflicts E I xs).1, (filterUserConflicts E I xs).2) := by
  by_cases he : x.email ∈ E <;> by_cases hi : x.id ∈ I <;>
    simp [filterUserConflicts, he, hi]

theorem filterUserConflicts_length (E I : List String) :
    ∀ (l : List UserRec),
      (filterUserConflicts E I l).1.length + (filterUserConflicts E I l).2.length =
        l.length + doubleConflicts E I l := by
  intro l
  induction l with
  | nil => rfl
  | cons x xs ih =>
    rw [filterUserConflicts_cons]
    by_cases he : x.email ∈ E <;> by_cases hi : x.id ∈ I <;>
      simp only [doubleConflicts, List.filter_cons, decide_eq_true_eq, he, hi,
        and_true, and_false, true_and, false_and, if_true, if_false,
        List.length_cons] at ih ⊢ <;>
      omega

/-- The validated records of `bulk_create_users` that conflict on both
their email and their id against the store (two reasons each). -/
def moduleUsersDoubleConflicts (store : Store) (genId : Nat → String)
    (now : String) (usersData : List UserIn) : Nat :=
  let v := moduleUsersValidated genId now usersData
  doubleConflicts
    ((store.users.map (·.email)).filter (· ∈ v.1.map (·.email)))
    ((store.users.map (·.id)).filter (· ∈ v.1.map (·.id)))
    v.1

/-- Counterexample to **C7** as stated: in `bulk_create_users`, one
record whose email *and* id both already exist in the store is a single
rejected record contributing *two* reason strings. -/
theorem claim_C7_counterexample :
    (bulkCreateUsers
      ⟨[⟨"u1", "A", "a@x.com", 7, "T0", "T0"⟩], [], [], [], [], [], [], [], []⟩
      [⟨some "B", some "a@x.com", none, some "u1"⟩]
      1000 (fun n => "g" ++ toString n) "T" (fun _ => none)).result =
    ImportResult.done [] 1 0 2
      ["Email a@x.com already exists", "ID u1 already exists"] false := by decide

/-- **C7 (amended)**: on the non-failing path, in the API bulk imports
(users, questions, answers, LEARNED links) every rejected record
contributes exactly one reason — reasons plus created records add up to
the input count — and no rejected record is dropped.  In the module-level
`bulk_create_users` the same holds except in the store-conflict stage,
where a record conflicting on both its email and its id contributes two
reasons: reasons plus created records add up to the input count plus the
number of such double conflicts. -/
theorem claim_C7_amended :
    (∀ (store : Store) (usersData : List UserIn) (batchSize : Nat)
        (genId : Nat → String) (now : String) (fail : Nat → Option String),
      batchSize ≠ 0 → (∀ k, fail k = none) →
      (bulkCreateUsers store usersData batchSize genId now fail).result.reasons.length +
        (bulkCreateUsers store usersData batchSize genId now fail).result.createdCount =
        usersData.length + moduleUsersDoubleConflicts store genId now usersData) ∧
    (∀ (store : Store) (usersData : List UserIn) (batchSize : Nat)
        (genId : Nat → String) (now : String) (fail : Nat → Option String),
      batchSize ≠ 0 → (∀ k, fail k = none) →
      (importUsersOptimized store usersData batchSize genId now fail).result.reasons.length +
        (importUsersOptimized store usersData batchSize genId now fail).result.createdCount =
        usersData.length) ∧
    (∀ (store : Store) (questionsData : List QuestionIn) (batchSize : Nat)
        (genId : Nat → String) (now : String) (fail : Nat → Option String),
      batchSize ≠ 0 → (∀ k, fail k = none) →
      (importQuestionsOptimized store questionsData batchSize genId now fail).result.reasons.length +
        (importQuestionsOptimized store questionsData batchSize genId now fail).result.createdCount =
        questionsData.length) ∧
    (∀ (store : Store) (answersData : List AnswerIn) (batchSize : Nat)
        (genId : Nat → String) (now : String) (fail : Nat → Option String),
      batchSize ≠ 0 → (∀ k, fail k = none) →
      (importAnswersOptimized store answersData batchSize genId now fail).result.reasons.length +
        (importAnswersOptimized store answersData batchSize genId now fail).result.createdCount =
        answersData.length) ∧
    (∀ (store : Store) (linksData : List LinkIn) (now : String)
        (fail : Nat → Option String),
      (∀ k, fail k = none) →
      (bulkLinkUsersKnowledge store linksData now fail).result.reasons.length +
        (bulkLinkUsersKnowledge store linksData now fail).result.createdCount =
        linksData.length) := by
  refine ⟨?_, ?_, ?_, ?_, ?_⟩
  · intro store usersData batchSize genId now fail hn hf
    have hval := validateUsersModule_length genId now usersData 0 [] 0
    by_cases hv : (moduleUsersValidated genId now usersData).1.isEmpty
    · have hv' : (moduleUsersValidated genId now usersData).1 = [] :=
        List.isEmpty_iff.mp hv
      unfold bulkCreateUsers
      rw [if_pos hv]
      simp only [ImportResult.reasons, ImportResult.createdCount,
        moduleUsersDoubleConflicts, hv', doubleConflicts, List.filter_nil,
        List.length_nil, Nat.add_zero]
      simp only [moduleUsersValidated] at hv' ⊢
      rw [hv', List.length_nil] at hval
      omega
    · obtain ⟨_, hres⟩ := bulkCreateUsers_noFail store usersData batchSize
        genId now fail hn hv hf
      rw [hres]
      simp only [ImportResult.reasons, ImportResult.createdCount,
        List.length_append]
      have hfc := filterUserConflicts_length
        ((store.users.map (·.email)).filter
          (· ∈ (moduleUsersValidated genId now usersData).1.map (·.email)))
        ((store.users.map (·.id)).filter
          (· ∈ (moduleUsersValidated genId now usersData).1.map (·.id)))
        (moduleUsersValidated genId now usersData).1
      simp only [moduleUsersNew, moduleUsersDoubleConflicts]
      simp only [moduleUsersValidated] at hval hfc ⊢
      omega
  · intro store usersData batchSize genId now fail hn hf
    have hval := validateUsersApi_length genId now usersData 0 0
    by_cases hv : (apiUsersValidated genId now usersData).1.isEmpty
    · have hv' : (apiUsersValidated genId now usersData).1 = [] :=
        List.isEmpty_iff.mp hv
      unfold importUsersOptimized
      rw [if_pos hv]
      simp only [ImportResult.reasons, ImportResult.createdCount, Nat.add_zero]
      simp only [apiUsersValidated] at hv' ⊢
      rw [hv', List.length_nil] at hval
      omega
    · obtain ⟨_, hres⟩ := importUsersOptimized_noFail store usersData batchSize
        genId now fail hn hv hf
      rw [hres]
      simp only [ImportResult.reasons, ImportResult.createdCount,
        List.length_append]
      have hfc := filterEmailConflicts_length
        ((store.users.map (·.email)).filter
          (· ∈ (apiUsersValidated genId now usersData).1.map (·.email)))
        (apiUsersValidated genId now usersData).1
      simp only [apiUsersNew]
      simp only [apiUsersValidated] at hval hfc ⊢
      omega
  · intro store questionsData batchSize genId now fail hn hf
    have hval := validateQuestions_length genId now questionsData 0 0
    by_cases hv : (questionsValidated genId now questionsData).1.isEmpty
    · have hv' : (questionsValidated genId now questionsData).1 = [] :=
        List.isEmpty_iff.mp hv
      unfold importQuestionsOptimized
      rw [if_pos hv]
      simp only [ImportResult.reasons, ImportResult.createdCount, Nat.add_zero]
      simp only [questionsValidated] at hv' ⊢
      rw [hv', List.length_nil] at hval
      omega
    · obtain ⟨_, hres⟩ := importQuestionsOptimized_noFail store questionsData batchSize
        genId now fail hn hv hf
      rw [hres]
      simp only [ImportResult.reasons, ImportResult.createdCount,
        List.length_append]
      have hfc := filterQuestionsLesson_length
        (store.lessons.filter
          (· ∈ ((questionsValidated genId now questionsData).1.map (·.lesson_id)).dedup))
        (questionsValidated genId now questionsData).1
      simp only [questionsFinal]
      simp only [questionsValidated] at hval hfc ⊢
      omega
  · intro store answersData batchSize genId now fail hn hf
    have hval := validateAnswers_length genId now answersData 0 0
    by_cases hv : (answersValidated genId now answersData).1.isEmpty
    · have hv' : (answersValidated genId now answersData).1 = [] :=
        List.isEmpty_iff.mp hv
      unfold importAnswersOptimized
      rw [if_pos hv]
      simp only [ImportResult.reasons, ImportResult.createdCount, Nat.add_zero]
      simp only [answersValidated] at hv' ⊢
      rw [hv', List.length_nil] at hval
      omega
    · obtain ⟨_, hres⟩ := importAnswersOptimized_noFail store answersData batchSize
        genId now fail hn hv hf
      rw [hres]
      simp only [ImportResult.reasons, ImportResult.createdCount,
        List.length_append]
      have hfc := filterAnswersFk_length
        ((store.users.map (·.id)).filter
          (· ∈ ((answersValidated genId now answersData).1.map (·.user_id)).dedup))
        ((store.questions.map (·.id)).filter
          (· ∈ ((answersValidated genId now answersData).1.map (·.question_id)).dedup))
        (answersValidated genId now answersData).1
      simp only [answersFinal]
      simp only [answersValidated] at hval hfc ⊢
      omega
  · intro store linksData now fail hf
    have hval : (linksValidated now linksData).1.length +
        (linksValidated now linksData).2.length = linksData.length :=
      validateLinks_length now linksData 0
    have hfk : (linksFinal store now linksData).1.length +
        (linksFinal store now linksData).2.length =
        (linksValidated now linksData).1.length :=
      filterLinksFk_length _ _ _
    have hex : (linksNew store now linksData).1.length +
        (linksNew store now linksData).2.length =
        (linksFinal store now linksData).1.length :=
      filterLinksExisting_length _ _
    unfold bulkLinkUsersKnowledge
    by_cases hv : (linksValidated now linksData).1.isEmpty
    · have hv0 : (linksValidated now linksData).1.length = 0 := by
        rw [List.isEmpty_iff.mp hv]
        rfl
      rw [if_pos hv]
      simp only [ImportResult.reasons, ImportResult.createdCount, Nat.add_zero]
      omega
    · rw [if_neg hv]
      by_cases hf1 : (linksFinal store now linksData).1.isEmpty
      · have hf0 : (linksFinal store now linksData).1.length = 0 := by
          rw [List.isEmpty_iff.mp hf1]
          rfl
        rw [if_pos hf1]
        simp only [ImportResult.reasons, ImportResult.createdCount,
          List.length_append, List.length_nil, Nat.add_zero]
        omega
      · rw [if_neg hf1]
        by_cases hg : (linksNew store now linksData).1.isEmpty
        · have hg0 : (linksNew store now linksData).1.length = 0 := by
            rw [List.isEmpty_iff.mp hg]
            rfl
          simp only [if_pos hg]
          simp only [ImportResult.reasons, ImportResult.createdCount,
            List.length_append, List.length_nil, Nat.add_zero]
          omega
        · simp only [if_neg hg]
          rw [hf 0]
          simp only [ImportResult.reasons, ImportResult.createdCount,
            List.length_append]
          omega

/-- Witness for the amended C7: the double-conflict record yields two
reasons and zero created records — input count 1 plus one double
conflict. -/
theorem claim_C7_amended_witness :
    (bulkCreateUsers
      ⟨[⟨"u1", "A", "a@x.com", 7, "T0", "T0"⟩], [], [], [], [], [], [], [], []⟩
      [⟨some "B", some "a@x.com", none, some "u1"⟩]
      1000 (fun n => "g" ++ toString n) "T" (fun _ => none)).result.reasons.length +
    (bulkCreateUsers
      ⟨[⟨"u1", "A", "a@x.com", 7, "T0", "T0"⟩], [], [], [], [], [], [], [], []⟩
      [⟨some "B", some "a@x.com", none, some "u1"⟩]
      1000 (fun n => "g" ++ toString n) "T" (fun _ => none)).result.createdCount =
    1 + moduleUsersDoubleConflicts
      ⟨[⟨"u1", "A", "a@x.com", 7, "T0", "T0"⟩], [], [], [], [], [], [], [], []⟩
      (fun n => "g" ++ toString n) "T"
      [⟨some "B", some "a@x.com", none, some "u1"⟩] :=
  claim_C7_amended.1
    ⟨[⟨"u1", "A", "a@x.com", 7, "T0", "T0"⟩], [], [], [], [], [], [], [], []⟩
    [⟨some "B", some "a@x.com", none, some "u1"⟩]
    1000 (fun n => "g" ++ toString n) "T" (fun _ => none)
    (by decide) (fun _ => rfl)

/-- When every record is field-valid, validation keeps all of them (in
order) and reports nothing. -/
theorem validateLinks_all_valid (now : String) :
    ∀ (l : List LinkIn) (i : Nat),
      (∀ li ∈ l, ¬ (li.user_id.isNone = true ∨ li.knowledge_id.isNone = true)) →
      validateLinks now i l = (l.map (mkLearnedRec now), []) := by
  intro l
  induction l with
  | nil => intro i _; rfl
  | cons x xs ih =>
    intro i h
    rw [validateLinks, if_neg (h x (List.mem_cons_self _ _))]
    rw [ih (i + 1) (fun li hli => h li (List.mem_cons_of_mem _ hli))]
    rfl

/-- When every link passes the existence sets, the FK filter keeps all of
them and reports nothing. -/
theorem filterLinksFk_all_valid (eu ek : List String) :
    ∀ (l : List LearnedRec),
      (∀ r ∈ l, r.userId ∈ eu ∧ r.knowledgeId ∈ ek) →
      filterLinksFk eu ek l = (l, []) := by
  intro l
  induction l with
  | nil => intro _; rfl
  | cons x xs ih =>
    intro h
    rw [filterLinksFk,
      if_neg (not_not_intro (h x (List.mem_cons_self _ _)).1),
      if_neg (not_not_intro (h x (List.mem_cons_self _ _)).2)]
    rw [ih (fun r hr => h r (List.mem_cons_of_mem _ hr))]

/-- When no candidate's key is among the pre-existing keys, the
existing-relationship filter keeps all candidates and reports nothing. -/
theorem filterLinksExisting_all_new (keys : List String) :
    ∀ (l : List LearnedRec),
      (∀ r ∈ l, r.userId ++ "|" ++ r.knowledgeId ∉ keys) →
      filterLinksExisting keys l = (l, []) := by
  intro l
  induction l with
  | nil => intro _; rfl
  | cons x xs ih =>
    intro h
    rw [filterLinksExisting, if_neg (h x (List.mem_cons_self _ _))]
    rw [ih (fun r hr => h r (List.mem_cons_of_mem _ hr))]

/-- Counterexample to **C2** as stated: two LEARNED-link records for the
same pair `(u1, k1)` in one batch, both users/knowledge existing and no
pre-existing link — *both* are accepted (created count 2, no rejection
reason) and the store ends with two LEARNED links for the pair, violating
the at-most-one invariant. -/
theorem claim_C2_counterexample :
    (bulkLinkUsersKnowledge
      ⟨[⟨"u1", "A", "a@x.com", 7, "T0", "T0"⟩], [], [], [], [], [], [], ["k1"], []⟩
      [⟨some "u1", some "k1", none, some 50⟩, ⟨some "u1", some "k1", none, some 50⟩]
      "T" (fun _ => none)).result.createdCount = 2 ∧
    (bulkLinkUsersKnowledge
      ⟨[⟨"u1", "A", "a@x.com", 7, "T0", "T0"⟩], [], [], [], [], [], [], ["k1"], []⟩
      [⟨some "u1", some "k1", none, some 50⟩, ⟨some "u1", some "k1", none, some 50⟩]
      "T" (fun _ => none)).result.reasons = [] ∧
    ((bulkLinkUsersKnowledge
      ⟨[⟨"u1", "A", "a@x.com", 7, "T0", "T0"⟩], [], [], [], [], [], [], ["k1"], []⟩
      [⟨some "u1", some "k1", none, some 50⟩, ⟨some "u1", some "k1", none, some 50⟩]
      "T" (fun _ => none)).store.learned.filter
        (fun r => decide (r.userId = "u1" ∧ r.knowledgeId = "k1"))).length = 2 := by
  decide

/-- **C2 (amended)**: the duplicate check of `bulk_link_users_knowledge`
only rejects candidates whose pair is already *committed* in the store;
candidates of the same batch are never checked against each other.  For a
batch of field-valid records whose users and knowledge all exist and none
of whose pairs is pre-linked, *every* record is accepted — in-batch
duplicates included — and all of them are appended as LEARNED links, so
the per-pair uniqueness invariant is not enforced within a batch. -/
theorem claim_C2_amended (store : Store) (linksData : List LinkIn)
    (now : String) (fail : Nat → Option String)
    (hfv : ∀ li ∈ linksData, ¬ (li.user_id.isNone = true ∨ li.knowledge_id.isNone = true))
    (hu : ∀ li ∈ linksData, li.user_id.getD "" ∈ store.users.map (·.id))
    (hk : ∀ li ∈ linksData, li.knowledge_id.getD "" ∈ store.knowledge)
    (hpre : ∀ li ∈ linksData, ∀ r ∈ store.learned,
      li.user_id.getD "" ++ "|" ++ li.knowledge_id.getD "" ≠
        r.userId ++ "|" ++ r.knowledgeId)
    (hne : linksData ≠ []) (hf : fail 0 = none) :
    (bulkLinkUsersKnowledge store linksData now fail).result =
      ImportResult.done (linksData.map (mkLearnedRec now)) linksData.length
        (linksData.map (mkLearnedRec now)).length 0 [] true ∧
    (bulkLinkUsersKnowledge store linksData now fail).store.learned =
      store.learned ++ linksData.map (mkLearnedRec now) := by
  have hvL : linksValidated now linksData = (linksData.map (mkLearnedRec now), []) :=
    validateLinks_all_valid now linksData 0 hfv
  have hmem : ∀ r ∈ (linksValidated now linksData).1, ∃ li ∈ linksData,
      r = mkLearnedRec now li := by
    intro r hr
    rw [hvL] at hr
    obtain ⟨li, hli, rfl⟩ := List.mem_map.mp hr
    exact ⟨li, hli, rfl⟩
  have hfkAll : ∀ r ∈ (linksValidated now linksData).1,
      r.userId ∈ (store.users.map (·.id)).filter
        (· ∈ ((linksValidated now linksData).1.map (·.userId)).dedup) ∧
      r.knowledgeId ∈ store.knowledge.filter
        (· ∈ ((linksValidated now linksData).1.map (·.knowledgeId)).dedup) := by
    intro r hr
    obtain ⟨li, hli, rfl⟩ := hmem r hr
    constructor
    · rw [List.mem_filter]
      refine ⟨hu li hli, ?_⟩
      simp only [List.mem_dedup, decide_eq_true_eq]
      exact List.mem_map.mpr ⟨_, hr, rfl⟩
    · rw [List.mem_filter]
      refine ⟨hk li hli, ?_⟩
      simp only [List.mem_dedup, decide_eq_true_eq]
      exact List.mem_map.mpr ⟨_, hr, rfl⟩
  have hFin : linksFinal store now linksData = ((linksValidated now linksData).1, []) :=
    filterLinksFk_all_valid _ _ _ hfkAll
  have hNewKeys : ∀ r ∈ (linksFinal store now linksData).1,
      r.userId ++ "|" ++ r.knowledgeId ∉
        ((store.learned.filter
          (fun s => s.userId ∈ ((linksValidated now linksData).1.map (·.userId)).dedup ∧
            s.knowledgeId ∈ ((linksValidated now linksData).1.map (·.knowledgeId)).dedup)).map
          (fun s => s.userId ++ "|" ++ s.knowledgeId)) := by
    intro r hr hmemk
    rw [hFin] at hr
    obtain ⟨li, hli, rfl⟩ := hmem r hr
    obtain ⟨s, hs, hkey⟩ := List.mem_map.mp hmemk
    exact hpre li hli s (List.mem_filter.mp hs).1 hkey.symm
  have hNew : linksNew store now linksData = ((linksFinal store now linksData).1, []) :=
    filterLinksExisting_all_new _ _ hNewKeys
  have hmapne : linksData.map (mkLearnedRec now) ≠ [] := by
    intro h
    exact hne (List.map_eq_nil.mp h)
  have hv : ¬ (linksValidated now linksData).1.isEmpty := by
    rw [hvL]
    simpa [List.isEmpty_iff] using hmapne
  have hf1 : ¬ (linksFinal store now linksData).1.isEmpty := by
    rw [hFin]
    simpa [List.isEmpty_iff, hvL] using hmapne
  have hg : ¬ (linksNew store now linksData).1.isEmpty := by
    rw [hNew]
    simpa [List.isEmpty_iff, hFin, hvL] using hmapne
  have hsucc : decide (0 < (linksNew store now linksData).1.length) = true := by
    simp only [decide_eq_true_eq]
    rw [hNew, hFin, hvL]
    exact List.length_pos.mpr hmapne
  unfold bulkLinkUsersKnowledge
  rw [if_neg hv, if_neg hf1]
  simp only [if_neg hg, hf]
  constructor
  · rw [hsucc]
    simp only [hNew, hFin, hvL]
    rfl
  · simp only [hNew, hFin, hvL]

/-- Witness for the amended C2: the two-duplicate batch of the
counterexample satisfies all hypotheses, and both records are created. -/
theorem claim_C2_amended_witness :
    (bulkLinkUsersKnowledge
      ⟨[⟨"u1", "A", "a@x.com", 7, "T0", "T0"⟩], [], [], [], [], [], [], ["k1"], []⟩
      [⟨some "u1", some "k1", none, some 50⟩, ⟨some "u1", some "k1", none, some 50⟩]
      "T" (fun _ => none)).result =
      ImportResult.done
        (List.map (mkLearnedRec "T")
          [⟨some "u1", some "k1", none, some 50⟩, ⟨some "u1", some "k1", none, some 50⟩])
        2 (List.map (mkLearnedRec "T")
          [⟨some "u1", some "k1", none, some 50⟩, ⟨some "u1", some "k1", none, some 50⟩]).length
        0 [] true ∧
    (bulkLinkUsersKnowledge
      ⟨[⟨"u1", "A", "a@x.com", 7, "T0", "T0"⟩], [], [], [], [], [], [], ["k1"], []⟩
      [⟨some "u1", some "k1", none, some 50⟩, ⟨some "u1", some "k1", none, some 50⟩]
      "T" (fun _ => none)).store.learned =
      (⟨[⟨"u1", "A", "a@x.com", 7, "T0", "T0"⟩], [], [], [], [], [], [], ["k1"], []⟩ : Store).learned ++
        List.map (mkLearnedRec "T")
          [⟨some "u1", some "k1", none, some 50⟩, ⟨some "u1", some "k1", none, some 50⟩] :=
  claim_C2_amended
    ⟨[⟨"u1", "A", "a@x.com", 7, "T0", "T0"⟩], [], [], [], [], [], [], ["k1"], []⟩
    [⟨some "u1", some "k1", none, some 50⟩, ⟨some "u1", some "k1", none, some 50⟩]
    "T" (fun _ => none)
    (by decide) (by decide) (by decide) (by decide) (by decide) rfl

/-- Counterexample to **C8** as stated: on an input whose only record
fails validation, the call does return the failure with the per-record
reason and leaves the store unchanged, but a transaction *is* opened —
`session.begin_transaction()` runs before validation — and is closed
without commit; the trace contains `txBegin`. -/
theorem claim_C8_counterexample :
    (bulkCreateUsers ⟨[], [], [], [], [], [], [], [], []⟩
      [⟨none, none, none, none⟩] 1000 (fun n => "g" ++ toString n) "T"
      (fun _ => none)).result =
      ImportResult.earlyFail "No valid users to import"
        ["User 0: Missing name or email"] ∧
    Ev.txBegin ∈ (bulkCreateUsers ⟨[], [], [], [], [], [], [], [], []⟩
      [⟨none, none, none, none⟩] 1000 (fun n => "g" ++ toString n) "T"
      (fun _ => none)).trace := by decide

/-- **C8 (amended)**: for both bulk user imports, when no record survives
validation the call returns the failure result carrying every
per-record rejection reason (one per input record), issues no write, and
leaves the store unchanged; however a transaction is opened before
validation runs and is closed without commit (trace
`[txBegin, txRollback]`), rather than no transaction being opened. -/
theorem claim_C8_amended :
    (∀ (store : Store) (usersData : List UserIn) (batchSize : Nat)
        (genId : Nat → String) (now : String) (fail : Nat → Option String),
      (moduleUsersValidated genId now usersData).1 = [] →
      (bulkCreateUsers store usersData batchSize genId now fail).result =
        ImportResult.earlyFail "No valid users to import"
          (moduleUsersValidated genId now usersData).2 ∧
      (moduleUsersValidated genId now usersData).2.length = usersData.length ∧
      (bulkCreateUsers store usersData batchSize genId now fail).store = store ∧
      (bulkCreateUsers store usersData batchSize genId now fail).trace =
        [Ev.txBegin, Ev.txRollback]) ∧
    (∀ (store : Store) (usersData : List UserIn) (batchSize : Nat)
        (genId : Nat → String) (now : String) (fail : Nat → Option String),
      (apiUsersValidated genId now usersData).1 = [] →
      (importUsersOptimized store usersData batchSize genId now fail).result =
        ImportResult.earlyFail "No valid users to import"
          (apiUsersValidated genId now usersData).2 ∧
      (apiUsersValidated genId now usersData).2.length = usersData.length ∧
      (importUsersOptimized store usersData batchSize genId now fail).store = store ∧
      (importUsersOptimized store usersData batchSize genId now fail).trace =
        [Ev.txBegin, Ev.txRollback]) := by
  constructor
  · intro store usersData batchSize genId now fail hv
    have hval : (moduleUsersValidated genId now usersData).1.length +
        (moduleUsersValidated genId now usersData).2.length = usersData.length :=
      validateUsersModule_length genId now usersData 0 [] 0
    rw [hv, List.length_nil] at hval
    unfold bulkCreateUsers
    rw [if_pos (List.isEmpty_iff.mpr hv)]
    exact ⟨rfl, by omega, rfl, rfl⟩
  · intro store usersData batchSize genId now fail hv
    have hval : (apiUsersValidated genId now usersData).1.length +
        (apiUsersValidated genId now usersData).2.length = usersData.length :=
      validateUsersApi_length genId now usersData 0 0
    rw [hv, List.length_nil] at hval
    unfold importUsersOptimized
    rw [if_pos (List.isEmpty_iff.mpr hv)]
    exact ⟨rfl, by omega, rfl, rfl⟩

/-- Witness for the amended C8: one all-invalid record. -/
theorem claim_C8_amended_witness :
    (bulkCreateUsers ⟨[], [], [], [], [], [], [], [], []⟩
      [⟨none, none, none, none⟩] 1000 (fun n => "g" ++ toString n) "T"
      (fun _ => none)).result =
      ImportResult.earlyFail "No valid users to import"
        (moduleUsersValidated (fun n => "g" ++ toString n) "T"
          [⟨none, none, none, none⟩]).2 ∧
    (moduleUsersValidated (fun n => "g" ++ toString n) "T"
      [⟨none, none, none, none⟩]).2.length = 1 ∧
    (bulkCreateUsers ⟨[], [], [], [], [], [], [], [], []⟩
      [⟨none, none, none, none⟩] 1000 (fun n => "g" ++ toString n) "T"
      (fun _ => none)).store = ⟨[], [], [], [], [], [], [], [], []⟩ ∧
    (bulkCreateUsers ⟨[], [], [], [], [], [], [], [], []⟩
      [⟨none, none, none, none⟩] 1000 (fun n => "g" ++ toString n) "T"
      (fun _ => none)).trace = [Ev.txBegin, Ev.txRollback] :=
  claim_C8_amended.1 ⟨[], [], [], [], [], [], [], [], []⟩
    [⟨none, none, none, none⟩] 1000 (fun n => "g" ++ toString n) "T"
    (fun _ => none) (by decide)
